import Mathlib

/-!
Verification development for the FileLu rclone backend
(`backend/filelu/filelu.go` and the alternate revision of the same file
embedded in `backend/filelu/filelu_test.go`).

Go strings are modelled as `List Char` (`GoStr`), Go `int`/`int64` as `Int`,
byte contents as `List Nat` (each < 256).  Remote HTTP calls are modelled by
an explicit environment (`RemoteEnv`) mapping each request to its decoded
response, and every operation returns its result together with a trace of
the calls it made (`List Event`), so that "zero remote calls" and ordering
claims are statements about the trace.
-/

set_option maxRecDepth 100000

/-- Go strings, modelled as their sequence of runes. -/
abbrev GoStr := List Char

/-- Coerce a Lean string literal to a `GoStr`. -/
def gs (s : String) : GoStr := s.data

/-- Character class trimmed by Go `strings.TrimSpace` (`unicode.IsSpace`):
ASCII whitespace 9-13 and 32, NEL 133, NBSP 160, and the Unicode
White_Space code points 5760, 8192-8202, 8232, 8233, 8239, 8287, 12288. -/
def goIsSpace (c : Char) : Bool :=
  let n := c.toNat
  n = 32 ∨ (9 ≤ n ∧ n ≤ 13) ∨ n = 133 ∨ n = 160 ∨ n = 5760 ∨
  (8192 ≤ n ∧ n ≤ 8202) ∨ n = 8232 ∨ n = 8233 ∨ n = 8239 ∨ n = 8287 ∨ n = 12288

/-- Trailing-whitespace trim (right half of Go `strings.TrimSpace`). -/
def trimRightSpace (cs : GoStr) : GoStr :=
  ((cs.reverse).dropWhile goIsSpace).reverse

/-- Go `strings.TrimSpace`. -/
def goTrimSpace (cs : GoStr) : GoStr :=
  (trimRightSpace cs).dropWhile goIsSpace

/-- The decimal digit character for `n < 10`. -/
def digitChar (n : Nat) : Char :=
  match n with
  | 0 => '0' | 1 => '1' | 2 => '2' | 3 => '3' | 4 => '4'
  | 5 => '5' | 6 => '6' | 7 => '7' | 8 => '8' | _ => '9'

/-- Numeric value of a decimal digit character. -/
def charDigit (c : Char) : Nat := c.toNat - 48

/-- Decidable "is a decimal digit". -/
def isDigitCh (c : Char) : Bool := '0' ≤ c ∧ c ≤ '9'

/-- Decimal rendering of a natural number, most significant digit first
(the `%d` verb of Go `fmt.Sprintf` on non-negative values). -/
def natToStrW (n : Nat) : GoStr :=
  if h : n < 10 then [digitChar n]
  else natToStrW (n / 10) ++ [digitChar (n % 10)]
  decreasing_by exact Nat.div_lt_self (by omega) (by omega)

/-- Tail-recursive accumulator form of the decimal rendering, structurally
recursive on a fuel argument so that it evaluates by kernel reduction. -/
def natToStrAux : Nat → Nat → GoStr → GoStr
  | 0, _, acc => acc
  | fuel + 1, n, acc =>
      if n < 10 then digitChar n :: acc
      else natToStrAux fuel (n / 10) (digitChar (n % 10) :: acc)

/-- Decimal rendering of a natural number (executable form). -/
def natToStr (n : Nat) : GoStr := natToStrAux (n + 1) n []

/-- Decimal rendering of a Go `int` (the `%d` verb of `fmt.Sprintf`). -/
def intToStr (i : Int) : GoStr :=
  if i < 0 then '-' :: natToStr i.natAbs else natToStr i.natAbs

/-- Value of a digit string read left to right. -/
def digitsVal (cs : GoStr) : Nat :=
  cs.foldl (fun a c => a * 10 + charDigit c) 0

/-- Parse an unsigned decimal digit string (helper for `goAtoi`). -/
def parseNatDigits (cs : GoStr) : Option Nat :=
  if cs = [] then none
  else if cs.all isDigitCh then some (digitsVal cs) else none

/-- Go `strconv.Atoi` (= `strconv.ParseInt(s, 10, 0)` on a 64-bit platform):
optional sign, at least one digit, all digits, and the value must fit in
`int64`; any other input, or a range overflow, is an error (`none`). -/
def goAtoi (cs : GoStr) : Option Int :=
  match cs with
  | [] => none
  | c :: rest =>
      if c = '-' then
        match parseNatDigits rest with
        | some n => if n ≤ 9223372036854775808 then some (-(n : Int)) else none
        | none => none
      else if c = '+' then
        match parseNatDigits rest with
        | some n => if n ≤ 9223372036854775807 then some (n : Int) else none
        | none => none
      else
        match parseNatDigits (c :: rest) with
        | some n => if n ≤ 9223372036854775807 then some (n : Int) else none
        | none => none

/-! ## Naming codec (filelu.go)

`listDirectory` encodes entries as `fmt.Sprintf("%s (%d)", name, id)`;
`resolveFolderPath` decodes a path segment by checking for a `")"` suffix,
taking the substring after the *last* `"("` as the id, and trimming the
part before it. -/

/-- Split a list around its last `'('`: `splitAtLastParen cs = some (b, a)`
when `cs = b ++ '(' :: a` and `a` contains no `'('`; `none` when there is
no `'('` (Go `strings.LastIndex(part, "(")`). -/
def splitAtLastParen : GoStr → Option (GoStr × GoStr)
  | [] => none
  | c :: rest =>
      match splitAtLastParen rest with
      | some (b, a) => some (c :: b, a)
      | none => if c = '(' then some ([], rest) else none

/-- The encoding direction of the naming codec, from `listDirectory`
(filelu.go:628): `fmt.Sprintf("%s (%d)", folder.Name, folder.FldID)`. -/
def encodeSegment (name : GoStr) (id : Int) : GoStr :=
  name ++ ' ' :: '(' :: intToStr id ++ [')']

/-- The decoding direction of the naming codec, the inline segment parse of
`resolveFolderPath` (filelu.go:148-158): if the segment ends in `")"` and
has a `"("`, and the substring between the last `"("` and the final `")"`
parses with `strconv.Atoi`, the segment decodes to the trimmed front part
and the parsed id; otherwise the segment is returned unchanged with id `0`
(the resolver's "no embedded id" marker). -/
def decodeSegment (part : GoStr) : GoStr × Int :=
  if part.getLast? = some ')' then
    match splitAtLastParen part with
    | some (before, after) =>
        match goAtoi after.dropLast with
        | some id => (goTrimSpace before, id)
        | none => (part, 0)
    | none => (part, 0)
  else (part, 0)

/-- A segment "matches the template" when it ends in `")"`, contains a
`"("`, and the characters between the last `"("` and the final `")"` parse
as an integer. -/
def matchesTemplate (part : GoStr) : Bool :=
  part.getLast? = some ')' &&
    (match splitAtLastParen part with
     | some (_, after) => (goAtoi after.dropLast).isSome
     | none => false)

/-! ## Prefix-style codec (filelu_test.go revision)

The alternate revision of the backend encodes entries as
`fmt.Sprintf("(%d) %s", id, name)` and decodes a path segment by checking
for a `"("` prefix and taking the substring up to the *first* `")"` as the
id (filelu_test.go:188-199). -/

/-- Split a list around its first `')'`: `splitAtFirstClose cs = some (b, a)`
when `cs = b ++ ')' :: a` and `b` contains no `')'` (Go
`strings.Index(part, ")")`). -/
def splitAtFirstClose : GoStr → Option (GoStr × GoStr)
  | [] => none
  | c :: rest =>
      if c = ')' then some ([], rest)
      else
        match splitAtFirstClose rest with
        | some (b, a) => some (c :: b, a)
        | none => none

/-- Segment decode of the filelu_test.go revision of `resolveFolderPath`:
`(id) name` with the id anchored between the leading `"("` and the first
`")"`. -/
def decodeSegmentIdFront (part : GoStr) : GoStr × Int :=
  match part with
  | '(' :: rest =>
      match splitAtFirstClose rest with
      | some (idChars, after) =>
          match goAtoi idChars with
          | some id => (goTrimSpace after, id)
          | none => (part, 0)
      | none => (part, 0)
  | _ => (part, 0)

/-! ## Remote environment and call traces -/

/-- Go error values, preserving the wrapping structure of
`fmt.Errorf("...: %w", err)` and the sentinel errors the backend uses. -/
inductive GoErr where
  /-- The distinguished `fs.ErrorDirNotFound` sentinel. -/
  | errorDirNotFound
  /-- The `*DuplicateFileError` returned by the dedup check, carrying the
  combined hash. -/
  | duplicateFile (hash : GoStr)
  /-- A plain `fmt.Errorf` message. -/
  | msg (s : GoStr)
  /-- `fmt.Errorf("<outer>: %w", inner)`. -/
  | wrap (outer : GoStr) (inner : GoErr)
  /-- `fserrors.NoRetryError(inner)`. -/
  | noRetry (inner : GoErr)
deriving DecidableEq, Repr

/-- Outcome of a Go function that can also crash at runtime: `ok`,
a returned `error`, or an unrecovered runtime panic. -/
inductive GoOutcome (α : Type) where
  | ok (a : α)
  | error (e : GoErr)
  | panics (msg : GoStr)
deriving DecidableEq, Repr

/-- One remote call or source-object action, as recorded in a trace. -/
inductive Event where
  /-- GET `folder/list?fld_id=...`. -/
  | folderListCall (fldID : Int)
  /-- GET `file/direct_link?file_code=...`. -/
  | directLinkCall (code : GoStr)
  /-- GET `upload/server`; `ok` records whether it succeeded. -/
  | uploadServerCall (ok : Bool)
  /-- POST of the multipart body to the upload URL; `ok` is true exactly
  when the upload was confirmed (transport, decode and per-file status all
  succeeded). -/
  | uploadPost (ok : Bool)
  /-- GET `file/set_folder?file_code=...&fld_id=...`. -/
  | setFolderCall (fldID : Int)
  /-- `src.Open(ctx)` on the source object. -/
  | srcOpen (ok : Bool)
  /-- `src.Remove(ctx)` on the source object; `ok` is true exactly when
  the source was actually deleted. -/
  | srcRemove (ok : Bool)
  /-- GET `folder/delete?fld_id=...`. -/
  | folderDeleteCall (fldID : Int)
deriving DecidableEq, Repr

/-- A folder entry of the decoded `folder/list` response. -/
structure GoFolder where
  name : GoStr
  fldID : Int
deriving DecidableEq, Repr

/-- A file entry of the decoded `folder/list` response (the union of the
fields the various decoders in the backend read: name, file_code, size,
hash). -/
structure GoFileEntry where
  name : GoStr
  code : GoStr
  size : Int
  hash : GoStr
deriving DecidableEq, Repr

/-- Decoded result of a `folder/list` request: either the transport/JSON
layer failed with an error, or a body with a status, message and entries
was decoded. -/
inductive ListingResp where
  | fail (e : GoErr)
  | resp (status : Int) (msg : GoStr) (folders : List GoFolder) (files : List GoFileEntry)

/-- Decoded result of a status+message-only API request. -/
inductive ApiResp where
  | fail (e : GoErr)
  | resp (status : Int) (msg : GoStr)

/-- Decoded result of the `upload/server` request. -/
inductive UploadServerResp where
  | fail (e : GoErr)
  | resp (status : Int) (msg : GoStr) (sessId : GoStr) (result : GoStr)

/-- Decoded result of a `file/direct_link` request. -/
inductive DirectLinkResp where
  | fail (e : GoErr)
  | resp (status : Int) (msg : GoStr) (url : GoStr) (size : Int)

/-- One entry of the decoded upload response JSON array. -/
structure UploadRespEntry where
  fileCode : GoStr
  fileStatus : GoStr
deriving DecidableEq, Repr

/-- The remote service and the source object, as seen through the decoded
responses each request produces.  A fixed environment models one execution
history deterministically. -/
structure RemoteEnv where
  folderList : Int → ListingResp
  directLink : GoStr → DirectLinkResp
  uploadServer : UploadServerResp
  /-- Transport/decode outcome of the multipart upload POST. -/
  sendUpload : Except GoErr (List UploadRespEntry)
  setFolder : Int → ApiResp
  folderDelete : Int → ApiResp
  /-- Outcome of `src.Open(ctx)`. -/
  openSrc : Except GoErr Unit
  /-- Outcome of `io.Copy` from the source reader into the multipart body. -/
  readSrc : Except GoErr Unit
  /-- Outcome of `src.Remove(ctx)`. -/
  removeSrc : Except GoErr Unit
  /-- `time.Now()`. -/
  now : Int

/-! ## Path resolution -/

/-- Go `strings.Split(s, "/")`. -/
def splitOnSlash : GoStr → List GoStr
  | [] => [[]]
  | c :: rest =>
      if c = '/' then [] :: splitOnSlash rest
      else
        match splitOnSlash rest with
        | s :: ss => (c :: s) :: ss
        | [] => [[c]]

/-- The folder-matching loop of `resolveFolderPath`/`getFolderID`: scan the
returned folders in order and take the first whose name equals `part`
(exact, case-sensitive `==` on strings), mirroring the Go `for ... break`
loop. -/
def findFolder (part : GoStr) : List GoFolder → Option Int
  | [] => none
  | fo :: rest => if fo.name = part then some fo.fldID else findFolder part rest

/-- The per-segment loop of `resolveFolderPath` (filelu.go:142-213).
Empty segments are skipped; a segment with an embedded non-zero id is
adopted without any remote call; otherwise one `folder/list` call is made
on the current folder and the segment is matched against the returned
folder names. -/
def resolveLoop (env : RemoteEnv) : List GoStr → Int → List Event →
    Except GoErr Int × List Event
  | [], cur, tr => (.ok cur, tr)
  | part :: rest, cur, tr =>
      if part = [] then resolveLoop env rest cur tr
      else
        let dec := decodeSegment part
        if dec.2 ≠ 0 then resolveLoop env rest dec.2 tr
        else
          match env.folderList cur with
          | .fail e => (.error e, tr ++ [.folderListCall cur])
          | .resp status m folders _ =>
              if status ≠ 200 then
                (.error (.msg (gs "Error: " ++ m)), tr ++ [.folderListCall cur])
              else
                match findFolder dec.1 folders with
                | some fid => resolveLoop env rest fid (tr ++ [.folderListCall cur])
                | none => (.error .errorDirNotFound, tr ++ [.folderListCall cur])

/-- `resolveFolderPath` (filelu.go:134-216): the empty path is the root
(FolderID 0, no remote call); otherwise walk the slash-separated segments
from the root. -/
def resolveFolderPath (env : RemoteEnv) (path : GoStr) : Except GoErr Int × List Event :=
  if path = [] then (.ok 0, [])
  else resolveLoop env (splitOnSlash path) 0 []

/-- The per-segment loop of the filelu_test.go revision of
`resolveFolderPath` (lines 183-258), identical to `resolveLoop` except for
the prefix-style segment decode and the lowercase error text. -/
def resolveLoopT (env : RemoteEnv) : List GoStr → Int → List Event →
    Except GoErr Int × List Event
  | [], cur, tr => (.ok cur, tr)
  | part :: rest, cur, tr =>
      if part = [] then resolveLoopT env rest cur tr
      else
        let dec := decodeSegmentIdFront part
        if dec.2 ≠ 0 then resolveLoopT env rest dec.2 tr
        else
          match env.folderList cur with
          | .fail e => (.error e, tr ++ [.folderListCall cur])
          | .resp status m folders _ =>
              if status ≠ 200 then
                (.error (.msg (gs "error: " ++ m)), tr ++ [.folderListCall cur])
              else
                match findFolder dec.1 folders with
                | some fid => resolveLoopT env rest fid (tr ++ [.folderListCall cur])
                | none => (.error .errorDirNotFound, tr ++ [.folderListCall cur])

/-- `resolveFolderPath` of the filelu_test.go revision (lines 174-261). -/
def resolveFolderPathT (env : RemoteEnv) (path : GoStr) : Except GoErr Int × List Event :=
  if path = [] then (.ok 0, [])
  else resolveLoopT env (splitOnSlash path) 0 []

/-- A fully successful, contentless environment, used to instantiate
universally quantified theorems at a concrete input. -/
def trivEnv : RemoteEnv :=
  { folderList := fun _ => .resp 200 [] [] []
    directLink := fun _ => .resp 200 [] [] 0
    uploadServer := .resp 200 [] [] []
    sendUpload := .ok []
    setFolder := fun _ => .resp 200 []
    folderDelete := fun _ => .resp 200 []
    openSrc := .ok ()
    readSrc := .ok ()
    removeSrc := .ok ()
    now := 0 }

/-- The id a fully short-circuited walk ends on: each non-empty segment's
embedded id replaces the current one.  (Only used under the hypothesis
that every non-empty segment carries a non-zero embedded id.) -/
def foldIds (dec : GoStr → GoStr × Int) (parts : List GoStr) (cur : Int) : Int :=
  parts.foldl (fun s p => if p = [] then s else if (dec p).2 ≠ 0 then (dec p).2 else s) cur

/-- An environment whose root listing contains a case-variant name and two
folders sharing one name, used to exhibit case-sensitive first-match
resolution. -/
def dupNameEnv : RemoteEnv :=
  { trivEnv with
    folderList := fun i =>
      if i = 0 then
        .resp 200 [] [⟨gs "Docs", 1⟩, ⟨gs "docs", 2⟩, ⟨gs "docs", 3⟩] []
      else .fail (.msg (gs "unused")) }

/-! ## Content fingerprint (`ComputeMD5`, filelu_test.go:1748-1799)

`ComputeMD5` reads a 1024-byte leading window and a 1024-byte trailing
window of the file, concatenates them, MD5-digests the concatenation and
renders the digest with `base64.RawStdEncoding`.  The windows are
zero-initialized buffers filled by `io.ReadFull`; crucially, `io.ReadFull`
returns `io.ErrUnexpectedEOF` (not `io.EOF`) when the file is non-empty
but shorter than the window, and the code treats any error other than
`io.EOF` as fatal. -/

/-- Truncate to 32 bits. -/
def m32 (n : Nat) : Nat := n % 4294967296

/-- 32-bit complement. -/
def bnot32 (x : Nat) : Nat := 4294967295 - x

/-- 32-bit left rotation (for `x < 2 ^ 32`, `0 < s < 32`). -/
def rotl32 (x s : Nat) : Nat := m32 (x <<< s) ||| (x >>> (32 - s))

/-- The 64 MD5 sine-derived constants. -/
def md5K : List Nat := [
  0xd76aa478, 0xe8c7b756, 0x242070db, 0xc1bdceee,
  0xf57c0faf, 0x4787c62a, 0xa8304613, 0xfd469501,
  0x698098d8, 0x8b44f7af, 0xffff5bb1, 0x895cd7be,
  0x6b901122, 0xfd987193, 0xa679438e, 0x49b40821,
  0xf61e2562, 0xc040b340, 0x265e5a51, 0xe9b6c7aa,
  0xd62f105d, 0x02441453, 0xd8a1e681, 0xe7d3fbc8,
  0x21e1cde6, 0xc33707d6, 0xf4d50d87, 0x455a14ed,
  0xa9e3e905, 0xfcefa3f8, 0x676f02d9, 0x8d2a4c8a,
  0xfffa3942, 0x8771f681, 0x6d9d6122, 0xfde5380c,
  0xa4beea44, 0x4bdecfa9, 0xf6bb4b60, 0xbebfbc70,
  0x289b7ec6, 0xeaa127fa, 0xd4ef3085, 0x04881d05,
  0xd9d4d039, 0xe6db99e5, 0x1fa27cf8, 0xc4ac5665,
  0xf4292244, 0x432aff97, 0xab9423a7, 0xfc93a039,
  0x655b59c3, 0x8f0ccc92, 0xffeff47d, 0x85845dd1,
  0x6fa87e4f, 0xfe2ce6e0, 0xa3014314, 0x4e0811a1,
  0xf7537e82, 0xbd3af235, 0x2ad7d2bb, 0xeb86d391
]

/-- The 64 MD5 per-step rotation amounts. -/
def md5S : List Nat := [7, 12, 17, 22, 7, 12, 17, 22, 7, 12, 17, 22, 7, 12, 17, 22, 5, 9, 14, 20, 5, 9, 14, 20, 5, 9, 14, 20, 5, 9, 14, 20, 4, 11, 16, 23, 4, 11, 16, 23, 4, 11, 16, 23, 4, 11, 16, 23, 6, 10, 15, 21, 6, 10, 15, 21, 6, 10, 15, 21, 6, 10, 15, 21]

/-- `k`-byte little-endian rendering of `n`. -/
def leBytes : Nat → Nat → List Nat
  | 0, _ => []
  | k + 1, n => n % 256 :: leBytes k (n / 256)

/-- Group a byte list into little-endian 32-bit words. -/
def toWordsLE : List Nat → List Nat
  | b0 :: b1 :: b2 :: b3 :: rest =>
      (b0 + b1 * 256 + b2 * 65536 + b3 * 16777216) :: toWordsLE rest
  | _ => []

/-- MD5 padding: `0x80`, zeros to 56 mod 64, 8-byte little-endian bit length. -/
def md5Pad (msg : List Nat) : List Nat :=
  let len := msg.length
  msg ++ 0x80 :: List.replicate ((120 - (len + 1) % 64) % 64) 0 ++
    leBytes 8 (len * 8 % 18446744073709551616)

/-- Split into 64-byte chunks (fuel-indexed so it evaluates by kernel
reduction; the fuel is an upper bound on the number of chunks). -/
def chunks64 : Nat → List Nat → List (List Nat)
  | 0, _ => []
  | _ + 1, [] => []
  | fuel + 1, bs => bs.take 64 :: chunks64 fuel (bs.drop 64)

/-- One MD5 compression of a 16-word chunk. -/
def md5ProcessChunk (words : List Nat) (st : Nat × Nat × Nat × Nat) :
    Nat × Nat × Nat × Nat :=
  let step := fun (cur : Nat × Nat × Nat × Nat) (i : Nat) =>
    let (a, b, c, d) := cur
    let fg :=
      if i < 16 then ((b &&& c) ||| (bnot32 b &&& d), i)
      else if i < 32 then ((d &&& b) ||| (bnot32 d &&& c), (5 * i + 1) % 16)
      else if i < 48 then (b ^^^ c ^^^ d, (3 * i + 5) % 16)
      else (c ^^^ (b ||| bnot32 d), 7 * i % 16)
    let fv := (fg.1 + a + md5K.getD i 0 + words.getD fg.2 0) % 4294967296
    (d, (b + rotl32 fv (md5S.getD i 0)) % 4294967296, b, c)
  let fin := (List.range 64).foldl step st
  ((st.1 + fin.1) % 4294967296, (st.2.1 + fin.2.1) % 4294967296,
    (st.2.2.1 + fin.2.2.1) % 4294967296, (st.2.2.2 + fin.2.2.2) % 4294967296)

/-- MD5 of a byte sequence, as its 16-byte digest. -/
def md5Bytes (msg : List Nat) : List Nat :=
  let padded := md5Pad msg
  let st := (chunks64 padded.length padded).foldl
    (fun st ch => md5ProcessChunk (toWordsLE ch) st)
    (0x67452301, 0xefcdab89, 0x98badcfe, 0x10325476)
  leBytes 4 st.1 ++ leBytes 4 st.2.1 ++ leBytes 4 st.2.2.1 ++ leBytes 4 st.2.2.2

/-- The base64 standard alphabet. -/
def base64Alphabet : GoStr :=
  gs "ABCDEFGHIJKLMNOPQRSTUVWXYZabcdefghijklmnopqrstuvwxyz0123456789+/"

/-- Go `base64.RawStdEncoding.EncodeToString`: standard alphabet, no
padding. -/
def base64RawStd : List Nat → GoStr
  | [] => []
  | [b0] => [base64Alphabet.getD (b0 / 4) '?', base64Alphabet.getD (b0 % 4 * 16) '?']
  | [b0, b1] =>
      [base64Alphabet.getD (b0 / 4) '?',
       base64Alphabet.getD (b0 % 4 * 16 + b1 / 16) '?',
       base64Alphabet.getD (b1 % 16 * 4) '?']
  | b0 :: b1 :: b2 :: rest =>
      base64Alphabet.getD (b0 / 4) '?' ::
      base64Alphabet.getD (b0 % 4 * 16 + b1 / 16) '?' ::
      base64Alphabet.getD (b1 % 16 * 4 + b2 / 64) '?' ::
      base64Alphabet.getD (b2 % 64) '?' :: base64RawStd rest

/-- `ComputeMD5` (filelu_test.go:1748-1799), as a function of the file's
byte content (the file name plays no role in the digest).  The
zero-initialized 1024-byte windows, the `io.ReadFull` error handling, the
`Seek(-1024, SeekEnd)` trailing window, and the reuse of the leading
window when the size is at most 1024 are modelled exactly: in particular a
non-empty file shorter than 1024 bytes makes `io.ReadFull` return
`io.ErrUnexpectedEOF`, which is not `io.EOF` and is therefore returned as
`fmt.Errorf("failed to read first part: %w", err)`. -/
def computeMD5 (content : List Nat) : Except GoErr GoStr :=
  let partSize := 1024
  if content.length ≠ 0 ∧ content.length < partSize then
    .error (.wrap (gs "failed to read first part") (.msg (gs "unexpected EOF")))
  else
    let firstPart := content.take partSize ++
      List.replicate (partSize - content.length) 0
    let lastPart :=
      if content.length > partSize then content.drop (content.length - partSize)
      else firstPart
    .ok (base64RawStd (md5Bytes (firstPart ++ lastPart)))

/-- The 64-byte padding block appended to a 2048-byte message. -/
def md5TailBlock2048 : List Nat := 0x80 :: List.replicate 55 0 ++ leBytes 8 16384

/-- The MD5 compression states reached after each of the 33 blocks of the
padded 2048-zero-byte message (block 0 is the initial state). -/
def md5ZeroStates : List (Nat × Nat × Nat × Nat) := [
  (0x67452301, 0xefcdab89, 0x98badcfe, 0x10325476),
  (0x031f1dac, 0x6ea58ed0, 0x1fab67b7, 0x74317791),
  (0xcd0d5b14, 0x04015d84, 0x312e4049, 0x10662932),
  (0x00847a02, 0x10969ad0, 0x76a19c1d, 0x29beed3d),
  (0x36adf9b6, 0x3fa6bf0b, 0x0c9ca942, 0x35a07171),
  (0x272db99f, 0x0479dd1e, 0xc6ab61bd, 0x3ae1448a),
  (0xf75404e6, 0x3cd4cdc6, 0x3d1f4727, 0x3adb7c80),
  (0x0a62e8e3, 0x1b4f40e5, 0xd3a00386, 0x38cd186f),
  (0x36e1bac5, 0x771d2ed3, 0x70a9a163, 0xffe086d1),
  (0x7a29b659, 0x2a1d10b9, 0x278b9099, 0x8b5af74c),
  (0xca35557d, 0x9da192a8, 0x7d71003e, 0x26389662),
  (0x9347fde9, 0xbdef6aaf, 0x5de1dcd0, 0xadb59e2d),
  (0x00e87d24, 0xdc99d437, 0xf7cac843, 0xbaa0dc26),
  (0xe7c54aed, 0x96dec9a3, 0xc90b9e86, 0x86d96734),
  (0xc33c01ed, 0xcc598a63, 0xc351cc14, 0xf533f4e5),
  (0x3fc1fcf7, 0x4cbc52bf, 0x275bbfe9, 0xc3041abe),
  (0x664e7a05, 0xa92cd7ac, 0x74f90872, 0x5c70b14b),
  (0xa7d447b7, 0x306f01a9, 0xeb22af20, 0x83cd3f81),
  (0x27da5b7f, 0x65ec10f1, 0xfee01b89, 0xcb419a5f),
  (0x8b177273, 0xd052949f, 0x2e42018f, 0xc97667c5),
  (0x2a8be356, 0x70036c9f, 0x68a5d548, 0x5d678d89),
  (0xbbc63bdc, 0x17c3b345, 0xd92822c0, 0x789b5b36),
  (0xb7814708, 0x1f3ba1cf, 0x3173083c, 0x45072b44),
  (0x9f9d9fc6, 0x4847fb22, 0xac669ee5, 0xd052a2f0),
  (0xefae288f, 0xeb738a4c, 0x2cadee9e, 0x7c62ddc1),
  (0xd3631615, 0x5f61994b, 0x88087c51, 0xb0082a76),
  (0x5a47993a, 0xc217033c, 0x6fef1053, 0x75c86343),
  (0x8b50c2dd, 0xc81fe5e0, 0xde86e58f, 0x74ab0bde),
  (0x854aa56d, 0x3731acd0, 0x34ff5d79, 0x54c6bc79),
  (0x2eb170da, 0xf4588e37, 0x9dee56d4, 0xc5e7c2bb),
  (0x3f6ef772, 0x34c8488b, 0x12a84ddc, 0x16122669),
  (0x5b66fb9f, 0x3f8b6bba, 0xd4c1d0d7, 0x365f76e9),
  (0x8babb0e9, 0x25ae9f73, 0x55f09fc9, 0xe4a43435),
  (0xc5749ac9, 0x431a3755, 0x551f123d, 0x98636c1d)
]

/-! ## File codes, objects and path helpers -/

/-- `isFileCode` (filelu.go:120-131): exactly 12 characters, each a
lowercase letter or a digit. -/
def isFileCode (s : GoStr) : Bool :=
  if s.length ≠ 12 then false
  else s.all (fun c => ('a' ≤ c ∧ c ≤ 'z') ∨ ('0' ≤ c ∧ c ≤ '9'))

/-- The fields of the backend's `Fs` struct that carry logic (the name,
options, endpoint and HTTP client only parameterize request URLs, which the
environment abstracts). -/
structure Fs where
  root : GoStr
deriving DecidableEq, Repr

/-- The fields of the backend's `Object` struct. -/
structure ObjectData where
  remote : GoStr
  size : Int
  modTime : Int
deriving DecidableEq, Repr

/-- A source `fs.Object` handed to `Move`/`MoveTo`, together with whether
the Go type assertion `src.(fs.Directory)` succeeds on it. -/
structure SrcObject where
  remote : GoStr
  size : Int
  modTime : Int
  isDir : Bool
deriving DecidableEq, Repr

/-- A virtual directory entry produced by `List`. -/
inductive DirEntry where
  | dirE (path : GoStr)
  | objE (o : ObjectData)
deriving DecidableEq, Repr

/-- Go `strings.Trim(s, "/")`. -/
def goTrimSlashes (cs : GoStr) : GoStr :=
  ((cs.dropWhile (fun c => c = '/')).reverse.dropWhile (fun c => c = '/')).reverse

/-- The element-processing loop of Go `path.Clean`, with the stack kept
head-first. -/
def cleanElems (rooted : Bool) : List GoStr → List GoStr → List GoStr
  | [], stack => stack.reverse
  | e :: rest, stack =>
      if e = [] ∨ e = gs "." then cleanElems rooted rest stack
      else if e = gs ".." then
        match stack with
        | top :: stack' =>
            if top = gs ".." then cleanElems rooted rest (e :: top :: stack')
            else cleanElems rooted rest stack'
        | [] => if rooted then cleanElems rooted rest [] else cleanElems rooted rest [e]
      else cleanElems rooted rest (e :: stack)

/-- Join path elements with `'/'`. -/
def joinSlash : List GoStr → GoStr
  | [] => []
  | [x] => x
  | x :: rest => x ++ '/' :: joinSlash rest

/-- Go `path.Clean`. -/
def goPathClean (p : GoStr) : GoStr :=
  if p = [] then gs "."
  else
    let rooted := p.head? = some '/'
    let out := (if rooted then ['/'] else []) ++
      joinSlash (cleanElems rooted (splitOnSlash p) [])
    if out = [] then gs "." else out

/-- Go `path.Join` of two elements: empty elements are dropped, the rest
joined with `'/'` and cleaned; all-empty input gives `""`. -/
def goPathJoin (a b : GoStr) : GoStr :=
  if a = [] ∧ b = [] then []
  else if a = [] then goPathClean b
  else if b = [] then goPathClean a
  else goPathClean (a ++ '/' :: b)

/-- Go `path.Base`. -/
def pathBase (p : GoStr) : GoStr :=
  if p = [] then gs "."
  else
    let p1 := (p.reverse.dropWhile (fun c => c = '/')).reverse
    if p1 = [] then gs "/"
    else (p1.reverse.takeWhile (fun c => ¬ c = '/')).reverse

/-- Scan for the `"://"` scheme separator; `none` when a `'/'` occurs
first or the string ends (no scheme). -/
def afterSchemeMark : GoStr → Option GoStr
  | [] => none
  | ':' :: '/' :: '/' :: rest => some rest
  | '/' :: _ => none
  | _ :: rest => afterSchemeMark rest

/-- The suffix starting at the first `'/'` (start of the URL path after
the host). -/
def fromFirstSlash : GoStr → GoStr
  | [] => []
  | '/' :: rest => '/' :: rest
  | _ :: rest => fromFirstSlash rest

/-- `extractFileName` (filelu.go:1410-1416): `url.Parse` followed by
`path.Base` of the URL path.  Modelled for well-formed URLs without query,
fragment or userinfo: the path component is everything from the first
`'/'` after `scheme://host` (for a scheme-less input, the whole string),
and `url.Parse` does not fail on such inputs so the `err != nil → ""`
branch of the Go code is not taken. -/
def extractFileName (urlStr : GoStr) : GoStr :=
  let p := match afterSchemeMark urlStr with
    | some rest => fromFirstSlash rest
    | none => urlStr
  pathBase p

/-! ## Remote call wrappers -/

/-- `getDirectLink` (filelu.go:743-783). -/
def getDirectLink (env : RemoteEnv) (fileCode : GoStr) :
    Except GoErr (GoStr × Int) × List Event :=
  let fc := goTrimSpace fileCode
  if fc = [] then (.error (.msg (gs "empty file code")), [])
  else
    match env.directLink fc with
    | .fail e => (.error (.wrap (gs "failed to fetch direct link") e), [.directLinkCall fc])
    | .resp status m url size =>
        if status ≠ 200 then (.error (.msg (gs "Error: " ++ m)), [.directLinkCall fc])
        else (.ok (url, size), [.directLinkCall fc])

/-- `getUploadServer` (filelu.go:870-903): one `upload/server` call,
returning the upload URL and the session id. -/
def getUploadServer (env : RemoteEnv) :
    Except GoErr (GoStr × GoStr) × List Event :=
  match env.uploadServer with
  | .fail e => (.error (.wrap (gs "failed to get upload server") e), [.uploadServerCall false])
  | .resp status m sessId result =>
      if status ≠ 200 then (.error (.msg (gs "Error: " ++ m)), [.uploadServerCall false])
      else (.ok (result, sessId), [.uploadServerCall true])

/-- `moveFileToFolder` (filelu.go:950-988): refuses folder id 0 before any
call, then one `file/set_folder` call. -/
def moveFileToFolder (env : RemoteEnv) (fileCode : GoStr) (folderID : Int) :
    Except GoErr Unit × List Event :=
  if folderID = 0 then (.error (.msg (gs "invalid folder ID")), [])
  else
    match env.setFolder folderID with
    | .fail e =>
        (.error (.wrap (gs "failed to send move request") e), [.setFolderCall folderID])
    | .resp status m =>
        if status ≠ 200 then
          (.error (.msg (gs "Error while moving file: " ++ m)), [.setFolderCall folderID])
        else (.ok (), [.setFolderCall folderID])

/-- The upload-response handling shared by both revisions of `uploadFile`
(filelu.go:397-413, filelu_test.go:1902-1916).  The Go guard is
`if len(result) == 0 || result[0].FileStatus != "OK"`; it is satisfied for
an empty slice by short-circuit, but the error it then builds evaluates
`result[0].FileStatus`, which for an empty slice is an index-out-of-range
runtime panic, not an error return. -/
def handleUploadResponse : List UploadRespEntry → GoOutcome GoStr
  | [] => .panics (gs "runtime error: index out of range [0] with length 0")
  | r :: _ =>
      if r.fileStatus ≠ gs "OK" then
        .error (.msg (gs "upload failed with status: " ++ r.fileStatus))
      else .ok r.fileCode

/-- `uploadFile` (filelu.go:357-413): build the multipart body (writes to
the in-memory buffer cannot fail; `io.Copy` from the source reader is the
`readSrc` knob), POST it, decode the JSON array, and apply the
status-flag check. -/
def uploadFile (env : RemoteEnv) (uploadURL sessionID fileName : GoStr) :
    GoOutcome GoStr × List Event :=
  match env.readSrc with
  | .error e => (.error (.wrap (gs "failed to copy file content") e), [])
  | .ok _ =>
      match env.sendUpload with
      | .error e => (.error (.wrap (gs "failed to send request") e), [.uploadPost false])
      | .ok entries =>
          match handleUploadResponse entries with
          | .ok fc => (.ok fc, [.uploadPost true])
          | .error e => (.error e, [.uploadPost false])
          | .panics msg => (.panics msg, [.uploadPost false])

/-- `uploadFileWithFolder` (filelu.go:1162-1178): upload, then move into
the target folder when it is non-zero. -/
def uploadFileWithFolder (env : RemoteEnv) (uploadURL sessionID fileName : GoStr)
    (folderID : Int) : GoOutcome GoStr × List Event :=
  match uploadFile env uploadURL sessionID fileName with
  | (.ok fileCode, tr) =>
      if folderID ≠ 0 then
        match moveFileToFolder env fileCode folderID with
        | (.ok _, tr2) => (.ok fileCode, tr ++ tr2)
        | (.error e, tr2) =>
            (.error (.wrap (gs "failed to move file to folder") e), tr ++ tr2)
      else (.ok fileCode, tr)
  | (.error e, tr) => (.error (.wrap (gs "failed to upload file") e), tr)
  | (.panics msg, tr) => (.panics msg, tr)

/-- `MoveTo` (filelu.go:1119-1157): open the source, get an upload
session, upload (and conditionally relocate), and only then delete the
source object; any earlier failure returns without touching the source. -/
def MoveTo (env : RemoteEnv) (f : Fs) (src : SrcObject) (remote : GoStr) :
    GoOutcome ObjectData × List Event :=
  match env.openSrc with
  | .error e => (.error (.wrap (gs "failed to open source object") e), [.srcOpen false])
  | .ok _ =>
      match getUploadServer env with
      | (.error e, tr1) =>
          (.error (.wrap (gs "failed to retrieve upload server") e),
            .srcOpen true :: tr1)
      | (.ok us, tr1) =>
          match uploadFileWithFolder env us.1 us.2 src.remote
              (match goAtoi f.root with | some n => n | none => 0) with
          | (.error e, tr2) =>
              (.error (.wrap (gs "failed to upload and move file") e),
                .srcOpen true :: tr1 ++ tr2)
          | (.panics msg, tr2) => (.panics msg, .srcOpen true :: tr1 ++ tr2)
          | (.ok _, tr2) =>
              match env.removeSrc with
              | .error e =>
                  (.error (.wrap (gs "failed to delete source file after move") e),
                    .srcOpen true :: tr1 ++ tr2 ++ [.srcRemove false])
              | .ok _ =>
                  (.ok ⟨src.remote, src.size, src.modTime⟩,
                    .srcOpen true :: tr1 ++ tr2 ++ [.srcRemove true])

/-! ## Listing -/

/-- The file-entry encoding of `listDirectory`:
`fmt.Sprintf("%s (%s)", file.Name, file.Code)`. -/
def encodeFileSegment (name code : GoStr) : GoStr :=
  name ++ ' ' :: '(' :: code ++ [')']

/-- `listDirectory` (filelu.go:578-655): one `folder/list` call; each
folder and file entry is encoded with the naming codec and joined onto the
virtual directory path. -/
def listDirectory (env : RemoteEnv) (folderID : Int) (dir : GoStr) :
    Except GoErr (List DirEntry) × List Event :=
  match env.folderList folderID with
  | .fail e => (.error (.wrap (gs "failed to list directory") e), [.folderListCall folderID])
  | .resp status m folders files =>
      if status ≠ 200 then (.error (.msg (gs "Error: " ++ m)), [.folderListCall folderID])
      else
        let currentDir := if dir ≠ [] ∧ ¬ dir.getLast? = some '/' then dir ++ ['/'] else dir
        let dirEntries := folders.map (fun fo =>
          let nameWithID := encodeSegment fo.name fo.fldID
          DirEntry.dirE (if currentDir ≠ [] then goPathJoin currentDir nameWithID
            else nameWithID))
        let fileEntries := files.map (fun fi =>
          let nameWithCode := encodeFileSegment fi.name fi.code
          DirEntry.objE ⟨if currentDir ≠ [] then goPathJoin currentDir nameWithCode
            else nameWithCode, fi.size, env.now⟩)
        (.ok (dirEntries ++ fileEntries), [.folderListCall folderID])

/-- The result type of a listing, named so that the identifier `List` is
not shadowed inside the definition of `Fs.List` below. -/
abbrev DirEntries := List DirEntry

/-- A trace of remote calls and source-object actions. -/
abbrev Trace := List Event

/-- `List` (filelu.go:543-574): when the configured root is shaped like a
file code the listing degenerates to the single file resolved through
`getDirectLink`; otherwise the directory is resolved and listed. -/
def Fs.List (env : RemoteEnv) (f : Fs) (dir : GoStr) :
    Except GoErr DirEntries × Trace :=
  if isFileCode f.root then
    match getDirectLink env f.root with
    | (.error e, tr) => (.error (.wrap (gs "failed to get direct link") e), tr)
    | (.ok ds, tr) => (.ok [.objE ⟨extractFileName ds.1, ds.2, env.now⟩], tr)
  else
    match resolveFolderPath env dir with
    | (.error e, tr) => (.error (.wrap (gs "failed to resolve folder path") e), tr)
    | (.ok folderID, tr) =>
        match listDirectory env folderID dir with
        | (res, tr2) => (res, tr ++ tr2)

/-- `NewObject` (filelu.go:809-836): for a file-code root the single file
is resolved through `getDirectLink`; for every other root the object is
fabricated from the remote path with no remote call, zero size (the Go
struct literal omits `size`) and `time.Now()` as modification time. -/
def Fs.NewObject (env : RemoteEnv) (f : Fs) (remote : GoStr) :
    Except GoErr ObjectData × Trace :=
  if isFileCode f.root then
    match getDirectLink env f.root with
    | (.error e, tr) => (.error (.wrap (gs "failed to get direct link") e), tr)
    | (.ok ds, tr) => (.ok ⟨extractFileName ds.1, ds.2, env.now⟩, tr)
  else
    (.ok ⟨remote, 0, env.now⟩, [])

mutual

/-- `moveDirectoryContents` (filelu.go:1059-1087): list the directory and
move each entry, recursing into subdirectories.  The Go recursion is
unbounded; it is modelled with an explicit fuel that any finite remote
tree stays below. -/
def moveDirectoryContents (env : RemoteEnv) (f : Fs) :
    Nat → GoStr → GoStr → Except GoErr Unit × List Event
  | 0, _, _ => (.error (.msg (gs "recursion limit exceeded")), [])
  | fuel + 1, dir, dest =>
      match Fs.List env f dir with
      | (.error e, tr) =>
          (.error (.wrap (gs "failed to list directory contents") e), tr)
      | (.ok entries, tr) =>
          let r := moveEntries env f fuel entries dest
          (r.1, tr ++ r.2)
termination_by fuel _ _ => (fuel, 0)

/-- The entry loop of `moveDirectoryContents`. -/
def moveEntries (env : RemoteEnv) (f : Fs) :
    Nat → List DirEntry → GoStr → Except GoErr Unit × List Event
  | _, [], _ => (.ok (), [])
  | fuel, .dirE p :: rest, dest =>
      match moveDirectoryContents env f fuel p (goPathJoin dest p) with
      | (.error e, tr) => (.error e, tr)
      | (.ok _, tr) =>
          let r := moveEntries env f fuel rest dest
          (r.1, tr ++ r.2)
  | fuel, .objE o :: rest, dest =>
      match MoveTo env f ⟨o.remote, o.size, o.modTime, false⟩
          (goPathJoin dest o.remote) with
      | (.ok _, tr) =>
          let r := moveEntries env f fuel rest dest
          (r.1, tr ++ r.2)
      | (.error e, tr) => (.error e, tr)
      | (.panics msg, tr) => (.error (.msg msg), tr)
termination_by fuel entries _ => (fuel, entries.length + 1)

end

/-- `Move` (filelu.go:1040-1056): a source satisfying the `fs.Directory`
type assertion is moved recursively; every other source falls back to the
single-file `MoveTo`. -/
def Move (env : RemoteEnv) (f : Fs) (src : SrcObject) (remote : GoStr) :
    GoOutcome ObjectData × List Event :=
  if src.isDir then
    match moveDirectoryContents env f 1000000 src.remote remote with
    | (.error e, tr) =>
        (.error (.wrap (gs "failed to move directory contents") e), tr)
    | (.ok _, tr) => (.ok ⟨src.remote, src.size, src.modTime⟩, tr)
  else
    MoveTo env f src remote

/-! ## Duplicate detection (filelu_test.go revision) -/

/-- `FetchRemoteFileHashes` (filelu_test.go:1687-1746): one `folder/list`
call on the given folder; the set of the `hash` fields of the returned
files (set membership below is membership in this list). -/
def FetchRemoteFileHashes (env : RemoteEnv) (folderID : Int) :
    Except GoErr (List GoStr) × List Event :=
  match env.folderList folderID with
  | .fail e => (.error e, [.folderListCall folderID])
  | .resp status _ _ files =>
      if status ≠ 200 then
        (.error (.msg (gs "error: non-200 status")), [.folderListCall folderID])
      else (.ok (files.map GoFileEntry.hash), [.folderListCall folderID])

/-- `uploadFile` of the filelu_test.go revision (lines 1800-1917): compute
the content fingerprint, combine it with the folder id string into the
dedup key `fmt.Sprintf("%s%d", hash, folderIDInt)`, fetch the remote
hashes of that folder (one listing call), and on membership return the
distinguishable `*DuplicateFileError` without performing the upload POST;
otherwise build and send the multipart body and apply the same response
handling as the main revision.  (The stray `os.Remove("file_path")` in the
source only logs its error and does not affect the result.) -/
def uploadFileT (env : RemoteEnv) (folderIDStr uploadURL sessionID fileName : GoStr)
    (content : List Nat) : GoOutcome GoStr × List Event :=
  match computeMD5 content with
  | .error e => (.error (.wrap (gs "failed to compute file hash") e), [])
  | .ok hash =>
      match goAtoi folderIDStr with
      | none => (.error (.msg (gs "invalid folder ID, cannot proceed")), [])
      | some folderIDInt =>
          let combinedHash := hash ++ intToStr folderIDInt
          match FetchRemoteFileHashes env folderIDInt with
          | (.error e, tr) =>
              (.error (.wrap (gs "failed to fetch remote file hashes") e), tr)
          | (.ok existingHashes, tr) =>
              if combinedHash ∈ existingHashes then
                (.error (.duplicateFile combinedHash), tr)
              else
                match env.readSrc with
                | .error e => (.error (.wrap (gs "failed to copy file content") e), tr)
                | .ok _ =>
                    match env.sendUpload with
                    | .error e =>
                        (.error (.wrap (gs "failed to send request") e),
                          tr ++ [.uploadPost false])
                    | .ok entries =>
                        match handleUploadResponse entries with
                        | .ok fc => (.ok fc, tr ++ [.uploadPost true])
                        | .error e => (.error e, tr ++ [.uploadPost false])
                        | .panics msg => (.panics msg, tr ++ [.uploadPost false])

/-- `IsDuplicateFileError` (filelu_test.go:1682-1685): the duplicate
condition is a distinguishable error type. -/
def IsDuplicateFileError : GoErr → Bool
  | .duplicateFile _ => true
  | _ => false

/-! ## Rmdir (filelu.go:1232-1330) -/

/-- `errors.Is` restricted to the wrapping structure the backend builds. -/
def errIs : GoErr → GoErr → Bool
  | e, target =>
      if e = target then true
      else
        match e with
        | .wrap _ inner => errIs inner target
        | .noRetry inner => errIs inner target
        | _ => false

/-- The name-walk loop of `getFolderID` (filelu.go:684-734), like
`resolveLoop` but with no embedded-id decoding. -/
def getFolderLoop (env : RemoteEnv) : List GoStr → Int → List Event →
    Except GoErr Int × List Event
  | [], cur, tr => (.ok cur, tr)
  | part :: rest, cur, tr =>
      if part = [] then getFolderLoop env rest cur tr
      else
        match env.folderList cur with
        | .fail e =>
            (.error (.wrap (gs "failed to list directory") e), tr ++ [.folderListCall cur])
        | .resp status m folders _ =>
            if status ≠ 200 then
              (.error (.msg (gs "Error: " ++ m)), tr ++ [.folderListCall cur])
            else
              match findFolder part folders with
              | some fid => getFolderLoop env rest fid (tr ++ [.folderListCall cur])
              | none => (.error .errorDirNotFound, tr ++ [.folderListCall cur])

/-- `getFolderID` (filelu.go:663-738): the empty directory resolves to the
numeric root (error when the root is not numeric); a numeric directory
string is its own id with no remote call; otherwise the path is walked by
exact name matching from the root. -/
def getFolderID (env : RemoteEnv) (root dir : GoStr) :
    Except GoErr Int × List Event :=
  if dir = [] then
    match goAtoi root with
    | none =>
        (.error (.wrap (gs "invalid root directory ID") (.msg (gs "invalid syntax"))), [])
    | some rootID => (.ok rootID, [])
  else
    match goAtoi dir with
    | some folderID => (.ok folderID, [])
    | none => getFolderLoop env (splitOnSlash dir) 0 []

/-- `Rmdir` (filelu.go:1232-1330): join the root onto the directory, trim
slashes, reject the empty path, resolve the folder id, list the folder
(one call), refuse with `directory not empty` before any delete call when
the listing shows any file or folder, and only for an empty listing issue
the `folder/delete` call.  (Faithfully to the source, the status of the
listing response is not checked before the emptiness test.) -/
def Rmdir (env : RemoteEnv) (f : Fs) (dir : GoStr) : Except GoErr Unit × List Event :=
  let fullPath := goTrimSlashes (if f.root ≠ [] then goPathJoin f.root dir else dir)
  if fullPath = [] then
    (.error (.noRetry (.msg (gs "directory name cannot be empty"))), [])
  else
    match getFolderID env f.root fullPath with
    | (.error e, tr) =>
        if errIs e .errorDirNotFound then (.error .errorDirNotFound, tr)
        else (.error (.noRetry (.wrap (gs "failed to get folder ID") e)), tr)
    | (.ok fldID, tr) =>
        match env.folderList fldID with
        | .fail e =>
            (.error (.noRetry (.wrap (gs "failed to check directory contents") e)),
              tr ++ [.folderListCall fldID])
        | .resp _ _ folders files =>
            if files ≠ [] ∨ folders ≠ [] then
              (.error (.noRetry (.msg (gs "directory not empty"))),
                tr ++ [.folderListCall fldID])
            else
              match env.folderDelete fldID with
              | .fail e =>
                  (.error (.noRetry (.wrap (gs "failed to delete directory") e)),
                    tr ++ [.folderListCall fldID, .folderDeleteCall fldID])
              | .resp dstatus dm =>
                  if dstatus ≠ 200 then
                    (.error (.noRetry (.msg (gs "Error: " ++ dm))),
                      tr ++ [.folderListCall fldID, .folderDeleteCall fldID])
                  else (.ok (), tr ++ [.folderListCall fldID, .folderDeleteCall fldID])

/-! ## Trace predicates -/

/-- No deletion of the source object occurs anywhere in the trace (neither
a successful nor a failed `src.Remove` attempt). -/
def noSrcRemove (tr : List Event) : Bool :=
  tr.all (fun e => match e with | .srcRemove _ => false | _ => true)

/-- No `folder/delete` call occurs in the trace. -/
def noFolderDelete (tr : List Event) : Bool :=
  tr.all (fun e => match e with | .folderDeleteCall _ => false | _ => true)

/-- The trace contains a confirmed-successful upload POST. -/
def uploadConfirmed (tr : List Event) : Bool :=
  tr.any (fun e => e = .uploadPost true)

/-- The trace contains an upload POST (successful or not). -/
def uploadAttempted (tr : List Event) : Bool :=
  tr.any (fun e => match e with | .uploadPost _ => true | _ => false)

/-- Scan a trace: every `src.Remove` action is preceded by a confirmed
successful upload POST (`seen` records whether one has been seen). -/
def removeAfterUpload : List Event → Bool → Bool
  | [], _ => true
  | .uploadPost true :: rest, _ => removeAfterUpload rest true
  | .srcRemove _ :: rest, seen => seen && removeAfterUpload rest seen
  | _ :: rest, seen => removeAfterUpload rest seen

/-- An environment whose upload succeeds and whose source deletion
succeeds. -/
def envUpOK : RemoteEnv :=
  { trivEnv with sendUpload := .ok [⟨gs "abc123def456", gs "OK"⟩] }

/-- An environment whose upload POST fails at the transport layer. -/
def envSendFail : RemoteEnv :=
  { trivEnv with sendUpload := .error (.msg (gs "net")) }

/-- An environment whose upload succeeds but whose source deletion
fails. -/
def envRemoveFail : RemoteEnv :=
  { envUpOK with removeSrc := .error (.msg (gs "boom")) }

/-- A concrete non-directory source object. -/
def srcA : SrcObject := ⟨gs "src.txt", 3, 7, false⟩

/-- An environment whose upload POST returns a body that decodes to the
empty JSON array. -/
def envEmptyUpload : RemoteEnv := { trivEnv with sendUpload := .ok [] }

/-- The folder-5 listing before the first upload: no hashes yet. -/
def dupEnv1 : RemoteEnv :=
  { trivEnv with
    folderList := fun i =>
      if i = 5 then .resp 200 [] [] [] else .fail (.msg (gs "unused")) }

/-- The folder-5 listing before the second upload: it contains the first
file's hash entry, which equals the dedup key of the empty content in
folder 5. -/
def dupEnv2 : RemoteEnv :=
  { trivEnv with
    folderList := fun i =>
      if i = 5 then
        .resp 200 [] []
          [⟨gs "a.txt", gs "abc123def456", 0, gs "yZp0xVU3GkM9Eh9VHWxjmA5"⟩]
      else .fail (.msg (gs "unused")) }

/-- Only `folder/list` calls occur in the trace. -/
def onlyFolderList (tr : List Event) : Bool :=
  tr.all (fun e => match e with | .folderListCall _ => true | _ => false)

/-- An environment whose direct-link lookup succeeds with a concrete URL
and size. -/
def envDL : RemoteEnv :=
  { trivEnv with
    directLink := fun _ =>
      .resp 200 [] (gs "https://cdn.filelu.com/d/abc/file.txt") 42 }

/-- An environment whose folder listing shows one file (a non-empty
directory). -/
def envRmNonempty : RemoteEnv :=
  { trivEnv with
    folderList := fun _ =>
      .resp 200 [] [] [⟨gs "a.txt", gs "abc123def456", 3, gs "h1"⟩] }

theorem goTrimSpace_append_space (cs : GoStr) :
    goTrimSpace (cs ++ [' ']) = goTrimSpace cs := by
  simp [goTrimSpace, trimRightSpace, goIsSpace]

theorem digitChar_isDigit {n : Nat} (h : n < 10) : isDigitCh (digitChar n) = true := by
  interval_cases n <;> decide

theorem charDigit_digitChar {n : Nat} (h : n < 10) : charDigit (digitChar n) = n := by
  interval_cases n <;> decide

theorem digitsVal_append_digit (cs : GoStr) (c : Char) :
    digitsVal (cs ++ [c]) = digitsVal cs * 10 + charDigit c := by
  simp [digitsVal]

theorem natToStrW_ne_nil (n : Nat) : natToStrW n ≠ [] := by
  rw [natToStrW]
  split <;> simp

theorem natToStrW_all_digits (n : Nat) : (natToStrW n).all isDigitCh = true := by
  induction n using Nat.strong_induction_on with
  | _ n ih =>
    rw [natToStrW]
    split
    · simp [digitChar_isDigit, *]
    · rename_i h
      have hd := ih (n / 10) (Nat.div_lt_self (by omega) (by omega))
      simp only [List.all_append, hd, Bool.true_and, List.all_cons, List.all_nil]
      simp [digitChar_isDigit (Nat.mod_lt n (by omega))]

theorem digitsVal_natToStrW (n : Nat) : digitsVal (natToStrW n) = n := by
  induction n using Nat.strong_induction_on with
  | _ n ih =>
    rw [natToStrW]
    split
    · rename_i h
      simp [digitsVal, charDigit_digitChar h]
    · rename_i h
      rw [digitsVal_append_digit, ih (n / 10) (Nat.div_lt_self (by omega) (by omega)),
        charDigit_digitChar (Nat.mod_lt n (by omega))]
      omega

theorem parseNatDigits_natToStrW (n : Nat) : parseNatDigits (natToStrW n) = some n := by
  simp [parseNatDigits, natToStrW_ne_nil, natToStrW_all_digits, digitsVal_natToStrW]

/-- No digit character is a parenthesis or a sign, and `natToStrW` starts
with a digit; used to show the decoder finds the encoder's delimiters. -/
theorem natToStrW_head_digit (n : Nat) :
    ∃ c rest, natToStrW n = c :: rest ∧ isDigitCh c = true := by
  have hne := natToStrW_ne_nil n
  have hall := natToStrW_all_digits n
  cases h : natToStrW n with
  | nil => exact absurd h hne
  | cons c rest =>
    rw [h] at hall
    simp only [List.all_cons, Bool.and_eq_true] at hall
    exact ⟨c, rest, rfl, hall.1⟩

theorem natToStrAux_eq : ∀ (fuel n : Nat) (acc : GoStr), n ≤ fuel →
    natToStrAux (fuel + 1) n acc = natToStrW n ++ acc := by
  intro fuel
  induction fuel with
  | zero =>
    intro n acc h
    have : n = 0 := by omega
    subst this
    simp [natToStrAux, natToStrW]
  | succ fuel ih =>
    intro n acc h
    rw [natToStrW]
    by_cases hn : n < 10
    · simp [natToStrAux, hn]
    · have hd : n / 10 < n := Nat.div_lt_self (by omega) (by omega)
      rw [dif_neg hn]
      have step : natToStrAux (fuel + 1 + 1) n acc
          = natToStrAux (fuel + 1) (n / 10) (digitChar (n % 10) :: acc) := by
        conv_lhs => rw [natToStrAux]
        rw [if_neg hn]
      rw [step, ih (n / 10) _ (by omega)]
      simp

theorem natToStr_eq (n : Nat) : natToStr n = natToStrW n := by
  have h := natToStrAux_eq n n [] (Nat.le_refl n)
  simpa [natToStr] using h

theorem goAtoi_intToStr {i : Int} (hlo : -(2 ^ 63) ≤ i) (hhi : i < 2 ^ 63) :
    goAtoi (intToStr i) = some i := by
  by_cases hneg : i < 0
  · have : intToStr i = '-' :: natToStrW i.natAbs := by
      simp [intToStr, hneg, natToStr_eq]
    rw [this]
    simp only [goAtoi, parseNatDigits_natToStrW]
    have hb : i.natAbs ≤ 9223372036854775808 := by omega
    simp only [hb, if_true]
    congr 1
    omega
  · push_neg at hneg
    have hne : intToStr i = natToStrW i.natAbs := by
      simp [intToStr, not_lt.mpr hneg, natToStr_eq]
    obtain ⟨c, rest, hcons, hdig⟩ := natToStrW_head_digit i.natAbs
    have hcne1 : c ≠ '-' := by
      intro h; rw [h] at hdig; simp [isDigitCh] at hdig
    have hcne2 : c ≠ '+' := by
      intro h; rw [h] at hdig; simp [isDigitCh] at hdig
    rw [hne, hcons]
    have hb : i.natAbs ≤ 9223372036854775807 := by omega
    have hparse : parseNatDigits (c :: rest) = some i.natAbs := by
      rw [← hcons, parseNatDigits_natToStrW]
    simp only [goAtoi, hcne1, hcne2, if_false, hparse, hb, if_true]
    congr 1
    omega

theorem splitAtLastParen_no_paren {cs : GoStr} (h : '(' ∉ cs) :
    splitAtLastParen cs = none := by
  induction cs with
  | nil => rfl
  | cons c rest ih =>
    simp only [List.mem_cons, not_or] at h
    have hc : ¬ c = '(' := fun hc => h.1 hc.symm
    simp [splitAtLastParen, ih h.2, hc]

theorem splitAtLastParen_append {xs ys : GoStr} (h : '(' ∉ ys) :
    splitAtLastParen (xs ++ '(' :: ys) = some (xs, ys) := by
  induction xs with
  | nil => simp [splitAtLastParen, splitAtLastParen_no_paren h]
  | cons x xs ih => simp [splitAtLastParen, ih]

theorem intToStr_no_paren (i : Int) : '(' ∉ intToStr i := by
  have hnat : ∀ n : Nat, '(' ∉ natToStr n := by
    intro n
    rw [natToStr_eq]
    have hall := natToStrW_all_digits n
    intro hmem
    rw [List.all_eq_true] at hall
    have := hall _ hmem
    simp [isDigitCh] at this
  intro hmem
  by_cases hneg : i < 0
  · simp only [intToStr, hneg, if_true, List.mem_cons] at hmem
    rcases hmem with h | h
    · exact absurd h (by decide)
    · exact hnat _ h
  · simp only [intToStr, hneg, if_false] at hmem
    exact hnat _ hmem

theorem getLast?_append_singleton (xs : GoStr) (c : Char) :
    (xs ++ [c]).getLast? = some c := by
  simp [List.getLast?_concat]

/-- Decoding an encoded segment always yields the trimmed name and the
exact id (for ids representable in Go's `int`); nothing about delimiter
characters in the name can break this, only surrounding whitespace can. -/
theorem decode_encode (name : GoStr) (id : Int)
    (hlo : -(2 ^ 63) ≤ id) (hhi : id < 2 ^ 63) :
    decodeSegment (encodeSegment name id) = (goTrimSpace name, id) := by
  have hsplit : splitAtLastParen (encodeSegment name id) =
      some (name ++ [' '], intToStr id ++ [')']) := by
    have : encodeSegment name id = (name ++ [' ']) ++ '(' :: (intToStr id ++ [')']) := by
      simp [encodeSegment]
    rw [this]
    apply splitAtLastParen_append
    intro hmem
    rcases List.mem_append.mp hmem with h | h
    · exact intToStr_no_paren id h
    · simp at h
  have hlast : (encodeSegment name id).getLast? = some ')' := by
    have : encodeSegment name id = (name ++ ' ' :: '(' :: intToStr id) ++ [')'] := by
      simp [encodeSegment]
    rw [this, getLast?_append_singleton]
  simp only [decodeSegment, hlast, if_true, hsplit]
  rw [List.dropLast_concat, goAtoi_intToStr hlo hhi, goTrimSpace_append_space]

theorem decode_literal {part : GoStr} (h : matchesTemplate part = false) :
    decodeSegment part = (part, 0) := by
  unfold decodeSegment
  split
  · rename_i hlast
    cases hsplit : splitAtLastParen part with
    | none => simp [hsplit]
    | some pr =>
      obtain ⟨b, a⟩ := pr
      cases hid : goAtoi a.dropLast with
      | none => simp [hsplit, hid]
      | some id =>
        exfalso
        unfold matchesTemplate at h
        rw [hlast, hsplit] at h
        simp [hid] at h
  · rfl

theorem resolveLoop_all_embedded (env : RemoteEnv) (parts : List GoStr)
    (cur : Int) (tr : List Event)
    (h : ∀ p ∈ parts, p = [] ∨ (decodeSegment p).2 ≠ 0) :
    resolveLoop env parts cur tr = (.ok (foldIds decodeSegment parts cur), tr) := by
  induction parts generalizing cur with
  | nil => simp [resolveLoop, foldIds]
  | cons p rest ih =>
    have hp := h p (by simp)
    have hrest : ∀ q ∈ rest, q = [] ∨ (decodeSegment q).2 ≠ 0 :=
      fun q hq => h q (List.mem_cons_of_mem _ hq)
    rcases hp with hp | hp
    · rw [resolveLoop, if_pos hp, ih _ hrest]
      simp [foldIds, hp]
    · by_cases hemp : p = []
      · rw [resolveLoop, if_pos hemp, ih _ hrest]
        simp [foldIds, hemp]
      · rw [resolveLoop, if_neg hemp]
        simp only [hp, if_true]
        rw [ih _ hrest]
        simp [foldIds, hemp, hp]

theorem resolveLoopT_all_embedded (env : RemoteEnv) (parts : List GoStr)
    (cur : Int) (tr : List Event)
    (h : ∀ p ∈ parts, p = [] ∨ (decodeSegmentIdFront p).2 ≠ 0) :
    resolveLoopT env parts cur tr = (.ok (foldIds decodeSegmentIdFront parts cur), tr) := by
  induction parts generalizing cur with
  | nil => simp [resolveLoopT, foldIds]
  | cons p rest ih =>
    have hp := h p (by simp)
    have hrest : ∀ q ∈ rest, q = [] ∨ (decodeSegmentIdFront q).2 ≠ 0 :=
      fun q hq => h q (List.mem_cons_of_mem _ hq)
    rcases hp with hp | hp
    · rw [resolveLoopT, if_pos hp, ih _ hrest]
      simp [foldIds, hp]
    · by_cases hemp : p = []
      · rw [resolveLoopT, if_pos hemp, ih _ hrest]
        simp [foldIds, hemp]
      · rw [resolveLoopT, if_neg hemp]
        simp only [hp, if_true]
        rw [ih _ hrest]
        simp [foldIds, hemp, hp]

theorem findFolder_eq_find? (part : GoStr) (folders : List GoFolder) :
    findFolder part folders =
      (folders.find? (fun fo => decide (fo.name = part))).map GoFolder.fldID := by
  induction folders with
  | nil => rfl
  | cons fo rest ih =>
    by_cases h : fo.name = part
    · simp [findFolder, List.find?, h]
    · simp [findFolder, List.find?, h, ih]

/-- C5 (amended): for every name without delimiter characters and without
leading or trailing whitespace, and every identifier representable in Go's
`int`, decoding the encoded segment recovers the original `(name, id)`
pair; and every segment that does not match the `"name (id)"` template is
returned unchanged (treated as a literal name, with no failure). -/
theorem codec_round_trip :
    (∀ name id, '(' ∉ name → ')' ∉ name → goTrimSpace name = name →
        -(2 ^ 63) ≤ id → id < 2 ^ 63 →
        decodeSegment (encodeSegment name id) = (name, id)) ∧
    (∀ part, matchesTemplate part = false → decodeSegment part = (part, 0)) := by
  constructor
  · intro name id _ _ htrim hlo hhi
    rw [decode_encode name id hlo hhi, htrim]
  · intro part h
    exact decode_literal h

/-- Witness for `codec_round_trip` at concrete inputs. -/
theorem codec_round_trip_witness :
    decodeSegment (encodeSegment (gs "docs") 42) = (gs "docs", 42) ∧
    decodeSegment (gs "a(b)c") = (gs "a(b)c", 0) := by
  constructor
  · exact codec_round_trip.1 (gs "docs") 42 (by decide) (by decide) (by decide)
      (by decide) (by decide)
  · exact codec_round_trip.2 (gs "a(b)c") (by decide)

/-- Counterexample to C5 as stated: the name `" a"` contains no delimiter
character, yet `decode(encode(" a", 1))` yields `("a", 1)`, not
`(" a", 1)`, because the decoder trims surrounding whitespace. -/
theorem codec_round_trip_cx :
    '(' ∉ gs " a" ∧ ')' ∉ gs " a" ∧
    decodeSegment (encodeSegment (gs " a") 1) = (gs "a", 1) ∧
    decodeSegment (encodeSegment (gs " a") 1) ≠ (gs " a", 1) := by
  refine ⟨by decide, by decide, ?_, ?_⟩ <;> decide

/-- C2: path resolution performs zero remote calls when every segment
carries an embedded identifier.  The empty path resolves to FolderID 0
with an empty call trace in both revisions of `resolveFolderPath`; any
path all of whose non-empty segments carry a non-zero embedded id is
resolved without any remote call (again in both revisions); and the
concrete path `"(42) docs/(17) reports"` resolves to FolderID 17 with an
empty call trace in the revision whose decoder matches that prefix-style
template (filelu_test.go:174-261). -/
theorem resolve_embedded_ids_zero_calls :
    (∀ env, resolveFolderPath env (gs "") = (.ok 0, [])) ∧
    (∀ env, resolveFolderPathT env (gs "") = (.ok 0, [])) ∧
    (∀ env path, (∀ p ∈ splitOnSlash path, p = [] ∨ (decodeSegment p).2 ≠ 0) →
        resolveFolderPath env path =
          (.ok (foldIds decodeSegment (splitOnSlash path) 0), [])) ∧
    (∀ env path, (∀ p ∈ splitOnSlash path, p = [] ∨ (decodeSegmentIdFront p).2 ≠ 0) →
        resolveFolderPathT env path =
          (.ok (foldIds decodeSegmentIdFront (splitOnSlash path) 0), [])) ∧
    (∀ env, resolveFolderPathT env (gs "(42) docs/(17) reports") = (.ok 17, [])) := by
  refine ⟨fun env => rfl, fun env => rfl, ?_, ?_, ?_⟩
  · intro env path h
    by_cases hp : path = []
    · subst hp
      simp [resolveFolderPath, splitOnSlash, foldIds]
    · rw [resolveFolderPath, if_neg hp, resolveLoop_all_embedded env _ 0 [] h]
  · intro env path h
    by_cases hp : path = []
    · subst hp
      simp [resolveFolderPathT, splitOnSlash, foldIds]
    · rw [resolveFolderPathT, if_neg hp, resolveLoopT_all_embedded env _ 0 [] h]
  · intro env
    have h : ∀ p ∈ splitOnSlash (gs "(42) docs/(17) reports"),
        p = [] ∨ (decodeSegmentIdFront p).2 ≠ 0 := by decide
    rw [resolveFolderPathT, if_neg (by decide),
      resolveLoopT_all_embedded env _ 0 [] h]
    rfl

/-- Witness for `resolve_embedded_ids_zero_calls` at concrete inputs. -/
theorem resolve_embedded_ids_zero_calls_witness :
    resolveFolderPath trivEnv (gs "docs (42)/reports (17)") = (.ok 17, []) ∧
    resolveFolderPathT trivEnv (gs "(42) docs/(17) reports") = (.ok 17, []) := by
  constructor
  · exact resolve_embedded_ids_zero_calls.2.2.1 trivEnv
      (gs "docs (42)/reports (17)") (by decide)
  · exact resolve_embedded_ids_zero_calls.2.2.2.2 trivEnv

/-- C6: for a non-empty segment with no embedded identifier, the resolver
makes exactly one listing call on the current folder and matches the
segment against the returned folder names exactly and case-sensitively:
the first entry (in the remote's return order) whose name equals the
segment advances the walk to that entry's id, and when no entry matches,
resolution fails with the distinguished `fs.ErrorDirNotFound`. -/
theorem resolve_plain_segment_behavior :
    ∀ env cur part rest tr m folders files,
      part ≠ [] → (decodeSegment part).2 = 0 →
      env.folderList cur = .resp 200 m folders files →
      resolveLoop env (part :: rest) cur tr =
        match folders.find? (fun fo => decide (fo.name = (decodeSegment part).1)) with
        | some fo => resolveLoop env rest fo.fldID (tr ++ [.folderListCall cur])
        | none => (.error .errorDirNotFound, tr ++ [.folderListCall cur]) := by
  intro env cur part rest tr m folders files hne hid hresp
  rw [resolveLoop, if_neg hne]
  simp only [hid, ne_eq, not_true_eq_false, if_false, hresp]
  rw [findFolder_eq_find?]
  cases folders.find? (fun fo => decide (fo.name = (decodeSegment part).1)) with
  | none => simp
  | some fo => simp

/-- Witness for `resolve_plain_segment_behavior`: with a listing that
contains `"Docs"` (id 1) and two folders named `"docs"` (ids 2 and 3), the
segment `"docs"` resolves to id 2 (case-sensitive, first match), and a
missing name yields `fs.ErrorDirNotFound`; one listing call each. -/
theorem resolve_plain_segment_behavior_witness :
    resolveLoop dupNameEnv [gs "docs"] 0 [] = (.ok 2, [.folderListCall 0]) ∧
    resolveLoop dupNameEnv [gs "nope"] 0 [] =
      (.error .errorDirNotFound, [.folderListCall 0]) := by
  constructor
  · exact resolve_plain_segment_behavior dupNameEnv 0 (gs "docs") [] [] []
      [⟨gs "Docs", 1⟩, ⟨gs "docs", 2⟩, ⟨gs "docs", 3⟩] [] (by decide) (by decide) rfl
  · exact resolve_plain_segment_behavior dupNameEnv 0 (gs "nope") [] [] []
      [⟨gs "Docs", 1⟩, ⟨gs "docs", 2⟩, ⟨gs "docs", 3⟩] [] (by decide) (by decide) rfl

theorem md5ZeroStep : ∀ k < 32,
    md5ProcessChunk (List.replicate 16 0) (md5ZeroStates.getD k (0,0,0,0)) =
      md5ZeroStates.getD (k + 1) (0,0,0,0) := by
  decide

theorem chunks64_step {fuel : Nat} {bs : List Nat} (h : bs ≠ []) :
    chunks64 (fuel + 1) bs = bs.take 64 :: chunks64 fuel (bs.drop 64) := by
  cases bs with
  | nil => simp at h
  | cons c cs => rfl

theorem chunks64_nil (fuel : Nat) : chunks64 fuel [] = [] := by
  cases fuel <;> rfl

theorem chunks64_replicate : ∀ (k fuel : Nat) (rest : List Nat), rest.length = 64 →
    k + 1 ≤ fuel →
    chunks64 fuel (List.replicate (64 * k) 0 ++ rest) =
      List.replicate k (List.replicate 64 0) ++ [rest] := by
  intro k
  induction k with
  | zero =>
    intro fuel rest hlen hfuel
    cases fuel with
    | zero => omega
    | succ fuel =>
      simp only [Nat.mul_zero, List.replicate_zero, List.nil_append]
      rw [chunks64_step (by intro h; rw [h] at hlen; simp at hlen)]
      rw [List.take_of_length_le (by omega), List.drop_eq_nil_of_le (by omega),
        chunks64_nil]
  | succ k ih =>
    intro fuel rest hlen hfuel
    cases fuel with
    | zero => omega
    | succ fuel =>
      have hne : List.replicate (64 * (k + 1)) 0 ++ rest ≠ [] := by
        intro h
        have := congrArg List.length h
        simp at this
      rw [chunks64_step hne]
      rw [List.take_append_of_le_length (by simp),
        List.drop_append_of_le_length (by simp),
        List.take_replicate, List.drop_replicate]
      have h1 : min 64 (64 * (k + 1)) = 64 := by omega
      have h2 : 64 * (k + 1) - 64 = 64 * k := by omega
      rw [h1, h2, ih fuel rest hlen (by omega)]
      rfl

theorem toWordsLE_zeroBlock : toWordsLE (List.replicate 64 0) = List.replicate 16 0 := by
  rfl

/-- The MD5 chunk fold over the padded 2048-zero-byte message, computed one
compression at a time along `md5ZeroStates`. -/
theorem md5_fold_zeros : ∀ (j k : Nat), j + k = 32 →
    (List.replicate j (List.replicate 64 0) ++ [md5TailBlock2048]).foldl
      (fun st ch => md5ProcessChunk (toWordsLE ch) st)
      (md5ZeroStates.getD k (0, 0, 0, 0)) =
      (0xc5749ac9, 0x431a3755, 0x551f123d, 0x98636c1d) := by
  intro j
  induction j with
  | zero =>
    intro k hk
    have : k = 32 := by omega
    subst this
    decide
  | succ j ih =>
    intro k hk
    rw [List.replicate_succ, List.cons_append, List.foldl_cons, toWordsLE_zeroBlock,
      md5ZeroStep k (by omega), ih (k + 1) (by omega)]

theorem leBytes_length : ∀ k n, (leBytes k n).length = k := by
  intro k
  induction k with
  | zero => intro n; rfl
  | succ k ih => intro n; simp [leBytes, ih]

theorem md5TailBlock2048_length : md5TailBlock2048.length = 64 := by
  simp [md5TailBlock2048, leBytes_length]

theorem md5Pad_zeros2048 :
    md5Pad (List.replicate 2048 0) = List.replicate (64 * 32) 0 ++ md5TailBlock2048 := by
  unfold md5Pad md5TailBlock2048
  norm_num [List.length_replicate]

theorem md5Bytes_zeros2048 :
    md5Bytes (List.replicate 2048 0) =
      [0xc9, 0x9a, 0x74, 0xc5, 0x55, 0x37, 0x1a, 0x43,
       0x3d, 0x12, 0x1f, 0x55, 0x1d, 0x6c, 0x63, 0x98] := by
  unfold md5Bytes
  rw [md5Pad_zeros2048]
  simp only []
  rw [show (List.replicate (64 * 32) (0 : Nat) ++ md5TailBlock2048).length = 2112 from by
    rw [List.length_append, List.length_replicate, md5TailBlock2048_length]]
  rw [chunks64_replicate 32 2112 md5TailBlock2048 md5TailBlock2048_length (by omega)]
  have hfold := md5_fold_zeros 32 0 rfl
  rw [show md5ZeroStates.getD 0 (0, 0, 0, 0) =
    (0x67452301, 0xefcdab89, 0x98badcfe, 0x10325476) from rfl] at hfold
  rw [hfold]
  rfl

theorem computeMD5_nil :
    computeMD5 [] = .ok (gs "yZp0xVU3GkM9Eh9VHWxjmA") := by
  unfold computeMD5
  rw [if_neg (by simp)]
  simp only [List.take_nil, List.nil_append, List.length_nil, Nat.sub_zero, gt_iff_lt]
  rw [if_neg (by omega)]
  rw [show (List.replicate 1024 (0 : Nat) ++ List.replicate 1024 0) =
    List.replicate 2048 0 from by rw [← List.replicate_add]]
  rw [md5Bytes_zeros2048]
  rfl

/-- C4 (code-bug exhibit): `ComputeMD5` is *not* total on small files.  A
10-byte file makes it return the error `failed to read first part:
unexpected EOF` instead of a digest, because `io.ReadFull` reports
`io.ErrUnexpectedEOF` for a non-empty read shorter than the 1024-byte
window and the code only tolerates `io.EOF`.  The empty file does succeed
with the 22-character digest of 2048 zero bytes (the zeroed window used
for both halves), and success is characterized exactly by
`size = 0 ∨ 1024 ≤ size`; the digest is a function of the byte content
alone (the file name does not occur in the computation). -/
theorem computeMD5_small_file_errors :
    computeMD5 (List.replicate 10 65) =
      .error (.wrap (gs "failed to read first part") (.msg (gs "unexpected EOF"))) ∧
    computeMD5 [] = .ok (gs "yZp0xVU3GkM9Eh9VHWxjmA") ∧
    (∀ content : List Nat,
      (∃ s, computeMD5 content = .ok s) ↔
        content.length = 0 ∨ 1024 ≤ content.length) := by
  refine ⟨rfl, computeMD5_nil, ?_⟩
  intro content
  unfold computeMD5
  by_cases h : content.length ≠ 0 ∧ content.length < 1024
  · rw [if_pos h]
    constructor
    · rintro ⟨s, hs⟩
      exact absurd hs (by simp)
    · intro hc
      omega
  · rw [if_neg h]
    constructor
    · intro _
      omega
    · intro _
      exact ⟨_, rfl⟩

theorem moveFileToFolder_shape (env : RemoteEnv) (fc : GoStr) (fid : Int) :
    (moveFileToFolder env fc fid).2 = [] ∨
    (moveFileToFolder env fc fid).2 = [.setFolderCall fid] := by
  unfold moveFileToFolder
  by_cases h : fid = 0
  · left
    simp [h]
  · right
    simp only [h, if_false]
    cases env.setFolder fid with
    | fail e => rfl
    | resp st m =>
      dsimp only
      split <;> rfl

theorem getUploadServer_shape (env : RemoteEnv) :
    (∃ us, getUploadServer env = (.ok us, [.uploadServerCall true])) ∨
    (∃ e, getUploadServer env = (.error e, [.uploadServerCall false])) := by
  unfold getUploadServer
  cases env.uploadServer with
  | fail e => exact .inr ⟨_, rfl⟩
  | resp st m sid res =>
    by_cases h : st = 200
    · exact .inl ⟨(res, sid), by simp [h]⟩
    · exact .inr ⟨.msg (gs "Error: " ++ m), by simp [h]⟩

theorem uploadFile_shape (env : RemoteEnv) (u s n : GoStr) :
    (∃ fc, uploadFile env u s n = (.ok fc, [.uploadPost true])) ∨
    (∃ e, uploadFile env u s n = (.error e, []) ∨
          uploadFile env u s n = (.error e, [.uploadPost false])) ∨
    (∃ msg, uploadFile env u s n = (.panics msg, [.uploadPost false])) := by
  unfold uploadFile
  cases env.readSrc with
  | error e => exact .inr (.inl ⟨_, .inl rfl⟩)
  | ok _ =>
    cases env.sendUpload with
    | error e => exact .inr (.inl ⟨_, .inr rfl⟩)
    | ok entries =>
      cases hr : handleUploadResponse entries with
      | ok fc => exact .inl ⟨fc, by simp [hr]⟩
      | error e => exact .inr (.inl ⟨e, .inr (by simp [hr])⟩)
      | panics msg => exact .inr (.inr ⟨msg, by simp [hr]⟩)

theorem uploadFile_not_ok_of_send_error (env : RemoteEnv) (u s n : GoStr) (e : GoErr)
    (h : env.sendUpload = .error e) :
    ∀ fc tr, uploadFile env u s n ≠ (.ok fc, tr) := by
  intro fc tr
  unfold uploadFile
  cases env.readSrc with
  | error e2 => simp
  | ok _ => simp [h]

theorem uploadFileWithFolder_shape (env : RemoteEnv) (u s n : GoStr) (fid : Int) :
    (∃ fc, uploadFileWithFolder env u s n fid = (.ok fc, [.uploadPost true]) ∨
           uploadFileWithFolder env u s n fid =
             (.ok fc, [.uploadPost true, .setFolderCall fid])) ∨
    (∃ e, uploadFileWithFolder env u s n fid = (.error e, []) ∨
          uploadFileWithFolder env u s n fid = (.error e, [.uploadPost false]) ∨
          uploadFileWithFolder env u s n fid = (.error e, [.uploadPost true]) ∨
          uploadFileWithFolder env u s n fid =
            (.error e, [.uploadPost true, .setFolderCall fid])) ∨
    (∃ msg, uploadFileWithFolder env u s n fid = (.panics msg, [.uploadPost false])) := by
  unfold uploadFileWithFolder
  rcases uploadFile_shape env u s n with ⟨fc, hu⟩ | ⟨e, hu | hu⟩ | ⟨msg, hu⟩
  · rw [hu]
    by_cases hfid : fid = 0
    · exact .inl ⟨fc, .inl (by simp [hfid])⟩
    · simp only [hfid, ne_eq, not_false_eq_true, if_true]
      have hm := moveFileToFolder_shape env fc fid
      cases hmf : moveFileToFolder env fc fid with
      | mk r tr2 =>
        rw [hmf] at hm
        have hm2 : tr2 = [] ∨ tr2 = [.setFolderCall fid] := hm
        cases r with
        | ok u2 =>
          rcases hm2 with rfl | rfl
          · exact .inl ⟨fc, .inl rfl⟩
          · exact .inl ⟨fc, .inr rfl⟩
        | error e2 =>
          rcases hm2 with rfl | rfl
          · exact .inr (.inl ⟨.wrap (gs "failed to move file to folder") e2,
              .inr (.inr (.inl rfl))⟩)
          · exact .inr (.inl ⟨.wrap (gs "failed to move file to folder") e2,
              .inr (.inr (.inr rfl))⟩)
  · rw [hu]
    exact .inr (.inl ⟨_, .inl rfl⟩)
  · rw [hu]
    exact .inr (.inl ⟨_, .inr (.inl rfl)⟩)
  · rw [hu]
    exact .inr (.inr ⟨msg, rfl⟩)

theorem uploadFileWithFolder_not_ok_of_send_error (env : RemoteEnv) (u s n : GoStr)
    (fid : Int) (e : GoErr) (h : env.sendUpload = .error e) :
    ∀ fc tr, uploadFileWithFolder env u s n fid ≠ (.ok fc, tr) := by
  intro fc tr
  unfold uploadFileWithFolder
  cases hu : uploadFile env u s n with
  | mk r tru =>
    cases r with
    | ok fc2 => exact absurd hu (uploadFile_not_ok_of_send_error env u s n e h fc2 tru)
    | error e2 => simp
    | panics msg => simp

/-- C1: in every execution trace of `MoveTo` (to which `Move` falls back
for any non-directory source), deletion of the source object happens only
after the upload has been confirmed successful: the trace invariant
`removeAfterUpload` holds unconditionally; when the upload POST fails at
the transport layer the source is never touched; when no successful
upload is in the trace the source is never touched; and when source
deletion fails after a successful upload, the operation returns the
wrapped deletion error while the trace still shows the confirmed upload
(both copies exist). -/
theorem moveTo_upload_before_delete :
    ∀ env f src remote,
      removeAfterUpload (MoveTo env f src remote).2 false = true ∧
      (src.isDir = false → Move env f src remote = MoveTo env f src remote) ∧
      (∀ e, env.sendUpload = .error e →
        noSrcRemove (MoveTo env f src remote).2 = true) ∧
      (uploadConfirmed (MoveTo env f src remote).2 = false →
        noSrcRemove (MoveTo env f src remote).2 = true) ∧
      (∀ e, env.removeSrc = .error e →
        Event.srcRemove false ∈ (MoveTo env f src remote).2 →
        (MoveTo env f src remote).1 =
          .error (.wrap (gs "failed to delete source file after move") e) ∧
        uploadConfirmed (MoveTo env f src remote).2 = true) := by
  intro env f src remote
  have hmove : src.isDir = false → Move env f src remote = MoveTo env f src remote := by
    intro h
    unfold Move
    rw [h]
    simp
  cases hos : env.openSrc with
  | error e =>
    have hmt : MoveTo env f src remote =
        (.error (.wrap (gs "failed to open source object") e), [.srcOpen false]) := by
      unfold MoveTo
      simp [hos]
    refine ⟨?_, hmove, ?_, ?_, ?_⟩
    · rw [hmt]
      simp [removeAfterUpload]
    · intro e4 h4
      rw [hmt]
      simp [noSrcRemove]
    · intro h4
      rw [hmt]
      simp [noSrcRemove]
    · intro e4 h4 hmem
      rw [hmt] at hmem
      simp at hmem
  | ok u =>
    rcases getUploadServer_shape env with ⟨us, hus⟩ | ⟨e1, hus⟩
    · rcases uploadFileWithFolder_shape env us.1 us.2 src.remote
          (match goAtoi f.root with | some n => n | none => 0) with
        ⟨fc, hup | hup⟩ | ⟨e2, hup | hup | hup | hup⟩ | ⟨msg, hup⟩
      -- upload confirmed, no relocation step
      · cases hrm : env.removeSrc with
        | error e3 =>
          have hmt : MoveTo env f src remote =
              (.error (.wrap (gs "failed to delete source file after move") e3),
                [.srcOpen true, .uploadServerCall true, .uploadPost true,
                 .srcRemove false]) := by
            unfold MoveTo
            simp [hos, hus, hup, hrm]
          refine ⟨?_, hmove, ?_, ?_, ?_⟩
          · rw [hmt]
            simp [removeAfterUpload]
          · intro e4 h4
            exact absurd hup
              (uploadFileWithFolder_not_ok_of_send_error env us.1 us.2 src.remote _ e4 h4 fc _)
          · intro h4
            rw [hmt] at h4
            simp [uploadConfirmed] at h4
          · intro e4 h4 _
            injection h4 with h4
            subst h4
            rw [hmt]
            exact ⟨rfl, by simp [uploadConfirmed]⟩
        | ok u3 =>
          have hmt : MoveTo env f src remote =
              (.ok ⟨src.remote, src.size, src.modTime⟩,
                [.srcOpen true, .uploadServerCall true, .uploadPost true,
                 .srcRemove true]) := by
            unfold MoveTo
            simp [hos, hus, hup, hrm]
          refine ⟨?_, hmove, ?_, ?_, ?_⟩
          · rw [hmt]
            simp [removeAfterUpload]
          · intro e4 h4
            exact absurd hup
              (uploadFileWithFolder_not_ok_of_send_error env us.1 us.2 src.remote _ e4 h4 fc _)
          · intro h4
            rw [hmt] at h4
            simp [uploadConfirmed] at h4
          · intro e4 h4 _
            exact absurd h4 (by simp)
      -- upload confirmed and relocated
      · cases hrm : env.removeSrc with
        | error e3 =>
          have hmt : MoveTo env f src remote =
              (.error (.wrap (gs "failed to delete source file after move") e3),
                [.srcOpen true, .uploadServerCall true, .uploadPost true,
                 .setFolderCall (match goAtoi f.root with | some n => n | none => 0),
                 .srcRemove false]) := by
            unfold MoveTo
            simp [hos, hus, hup, hrm]
          refine ⟨?_, hmove, ?_, ?_, ?_⟩
          · rw [hmt]
            simp [removeAfterUpload]
          · intro e4 h4
            exact absurd hup
              (uploadFileWithFolder_not_ok_of_send_error env us.1 us.2 src.remote _ e4 h4 fc _)
          · intro h4
            rw [hmt] at h4
            simp [uploadConfirmed] at h4
          · intro e4 h4 _
            injection h4 with h4
            subst h4
            rw [hmt]
            exact ⟨rfl, by simp [uploadConfirmed]⟩
        | ok u3 =>
          have hmt : MoveTo env f src remote =
              (.ok ⟨src.remote, src.size, src.modTime⟩,
                [.srcOpen true, .uploadServerCall true, .uploadPost true,
                 .setFolderCall (match goAtoi f.root with | some n => n | none => 0),
                 .srcRemove true]) := by
            unfold MoveTo
            simp [hos, hus, hup, hrm]
          refine ⟨?_, hmove, ?_, ?_, ?_⟩
          · rw [hmt]
            simp [removeAfterUpload]
          · intro e4 h4
            exact absurd hup
              (uploadFileWithFolder_not_ok_of_send_error env us.1 us.2 src.remote _ e4 h4 fc _)
          · intro h4
            rw [hmt] at h4
            simp [uploadConfirmed] at h4
          · intro e4 h4 _
            exact absurd h4 (by simp)
      -- upload failed before any POST
      · have hmt : MoveTo env f src remote =
            (.error (.wrap (gs "failed to upload and move file") e2),
              [.srcOpen true, .uploadServerCall true]) := by
          unfold MoveTo
          simp [hos, hus, hup]
        refine ⟨?_, hmove, ?_, ?_, ?_⟩
        · rw [hmt]
          simp [removeAfterUpload]
        · intro e4 h4
          rw [hmt]
          simp [noSrcRemove]
        · intro h4
          rw [hmt]
          simp [noSrcRemove]
        · intro e4 h4 hmem
          rw [hmt] at hmem
          simp at hmem
      -- upload POST failed
      · have hmt : MoveTo env f src remote =
            (.error (.wrap (gs "failed to upload and move file") e2),
              [.srcOpen true, .uploadServerCall true, .uploadPost false]) := by
          unfold MoveTo
          simp [hos, hus, hup]
        refine ⟨?_, hmove, ?_, ?_, ?_⟩
        · rw [hmt]
          simp [removeAfterUpload]
        · intro e4 h4
          rw [hmt]
          simp [noSrcRemove]
        · intro h4
          rw [hmt]
          simp [noSrcRemove]
        · intro e4 h4 hmem
          rw [hmt] at hmem
          simp at hmem
      -- upload confirmed but non-OK status or later step errored; source untouched
      · have hmt : MoveTo env f src remote =
            (.error (.wrap (gs "failed to upload and move file") e2),
              [.srcOpen true, .uploadServerCall true, .uploadPost true]) := by
          unfold MoveTo
          simp [hos, hus, hup]
        refine ⟨?_, hmove, ?_, ?_, ?_⟩
        · rw [hmt]
          simp [removeAfterUpload]
        · intro e4 h4
          rw [hmt]
          simp [noSrcRemove]
        · intro h4
          rw [hmt]
          simp [noSrcRemove]
        · intro e4 h4 hmem
          rw [hmt] at hmem
          simp at hmem
      -- upload confirmed but relocation failed; source untouched
      · have hmt : MoveTo env f src remote =
            (.error (.wrap (gs "failed to upload and move file") e2),
              [.srcOpen true, .uploadServerCall true, .uploadPost true,
               .setFolderCall (match goAtoi f.root with | some n => n | none => 0)]) := by
          unfold MoveTo
          simp [hos, hus, hup]
        refine ⟨?_, hmove, ?_, ?_, ?_⟩
        · rw [hmt]
          simp [removeAfterUpload]
        · intro e4 h4
          rw [hmt]
          simp [noSrcRemove]
        · intro h4
          rw [hmt]
          simp [noSrcRemove]
        · intro e4 h4 hmem
          rw [hmt] at hmem
          simp at hmem
      -- response-decoding panic propagates; source untouched
      · have hmt : MoveTo env f src remote =
            (.panics msg,
              [.srcOpen true, .uploadServerCall true, .uploadPost false]) := by
          unfold MoveTo
          simp [hos, hus, hup]
        refine ⟨?_, hmove, ?_, ?_, ?_⟩
        · rw [hmt]
          simp [removeAfterUpload]
        · intro e4 h4
          rw [hmt]
          simp [noSrcRemove]
        · intro h4
          rw [hmt]
          simp [noSrcRemove]
        · intro e4 h4 hmem
          rw [hmt] at hmem
          simp at hmem
    · have hmt : MoveTo env f src remote =
          (.error (.wrap (gs "failed to retrieve upload server") e1),
            [.srcOpen true, .uploadServerCall false]) := by
        unfold MoveTo
        simp [hos, hus]
      refine ⟨?_, hmove, ?_, ?_, ?_⟩
      · rw [hmt]
        simp [removeAfterUpload]
      · intro e4 h4
        rw [hmt]
        simp [noSrcRemove]
      · intro h4
        rw [hmt]
        simp [noSrcRemove]
      · intro e4 h4 hmem
        rw [hmt] at hmem
        simp at hmem

/-- Witness for `moveTo_upload_before_delete` at concrete inputs. -/
theorem moveTo_upload_before_delete_witness :
    removeAfterUpload (MoveTo envUpOK ⟨gs "0"⟩ srcA (gs "dst")).2 false = true ∧
    Move envUpOK ⟨gs "0"⟩ srcA (gs "dst") = MoveTo envUpOK ⟨gs "0"⟩ srcA (gs "dst") ∧
    noSrcRemove (MoveTo envSendFail ⟨gs "0"⟩ srcA (gs "dst")).2 = true ∧
    (MoveTo envRemoveFail ⟨gs "0"⟩ srcA (gs "dst")).1 =
      .error (.wrap (gs "failed to delete source file after move") (.msg (gs "boom"))) ∧
    uploadConfirmed (MoveTo envRemoveFail ⟨gs "0"⟩ srcA (gs "dst")).2 = true := by
  have h5 := (moveTo_upload_before_delete envRemoveFail ⟨gs "0"⟩ srcA (gs "dst")).2.2.2.2
    (.msg (gs "boom")) rfl (by decide)
  exact ⟨(moveTo_upload_before_delete envUpOK ⟨gs "0"⟩ srcA (gs "dst")).1,
    (moveTo_upload_before_delete envUpOK ⟨gs "0"⟩ srcA (gs "dst")).2.1 rfl,
    (moveTo_upload_before_delete envSendFail ⟨gs "0"⟩ srcA (gs "dst")).2.2.1
      (.msg (gs "net")) rfl,
    h5.1, h5.2⟩

/-- C7 (code-bug exhibit): `uploadFile`'s response handling does not turn
every failure into a returned error.  A response decoding to an empty
array makes the guard `len(result) == 0 || result[0].FileStatus != "OK"`
true by short-circuit, but the error message it then builds evaluates
`result[0].FileStatus`, which panics with an index-out-of-range runtime
error instead of returning an error; a response whose first entry has a
non-"OK" status flag does produce an error return, and an "OK" first
entry succeeds. -/
theorem uploadResponse_empty_panics :
    handleUploadResponse [] =
      .panics (gs "runtime error: index out of range [0] with length 0") ∧
    (∀ env u s n, env.readSrc = .ok () → env.sendUpload = .ok [] →
      (uploadFile env u s n).1 =
        .panics (gs "runtime error: index out of range [0] with length 0")) ∧
    (∀ r rest, r.fileStatus ≠ gs "OK" →
      handleUploadResponse (r :: rest) =
        .error (.msg (gs "upload failed with status: " ++ r.fileStatus))) ∧
    (∀ r rest, r.fileStatus = gs "OK" →
      handleUploadResponse (r :: rest) = .ok r.fileCode) := by
  refine ⟨rfl, ?_, ?_, ?_⟩
  · intro env u s n hr hs
    unfold uploadFile
    rw [hr, hs]
    rfl
  · intro r rest h
    simp [handleUploadResponse, h]
  · intro r rest h
    simp [handleUploadResponse, h]

/-- Witness for `uploadResponse_empty_panics` at concrete inputs. -/
theorem uploadResponse_empty_panics_witness :
    (uploadFile envEmptyUpload (gs "u") (gs "s") (gs "f.txt")).1 =
      .panics (gs "runtime error: index out of range [0] with length 0") ∧
    handleUploadResponse [⟨gs "abc123def456", gs "FAIL"⟩] =
      .error (.msg (gs "upload failed with status: FAIL")) ∧
    handleUploadResponse [⟨gs "abc123def456", gs "OK"⟩] = .ok (gs "abc123def456") := by
  refine ⟨uploadResponse_empty_panics.2.1 envEmptyUpload (gs "u") (gs "s") (gs "f.txt")
      rfl rfl, ?_, ?_⟩
  · have h := uploadResponse_empty_panics.2.2.1 ⟨gs "abc123def456", gs "FAIL"⟩ []
      (by decide)
    exact h
  · exact uploadResponse_empty_panics.2.2.2 ⟨gs "abc123def456", gs "OK"⟩ [] rfl

/-- C10: for every `Fs` whose root is not shaped like a file code,
`NewObject` succeeds on every remote path with no remote call and no
existence check, returning an object carrying exactly the given path,
size 0 and the current time as modification time. -/
theorem newObject_no_existence_check :
    ∀ env f remote, isFileCode f.root = false →
      Fs.NewObject env f remote = (.ok ⟨remote, 0, env.now⟩, []) := by
  intro env f remote h
  unfold Fs.NewObject
  rw [h]
  simp

/-- Witness for `newObject_no_existence_check`: a path that exists nowhere
still yields an object, with no remote call. -/
theorem newObject_no_existence_check_witness :
    Fs.NewObject trivEnv ⟨gs "myfolder"⟩ (gs "no/such/file.txt") =
      (.ok ⟨gs "no/such/file.txt", 0, 0⟩, []) :=
  newObject_no_existence_check trivEnv ⟨gs "myfolder"⟩ (gs "no/such/file.txt") (by decide)

/-- C3: the dedup key is the content fingerprint concatenated with the
decimal folder id (`fmt.Sprintf("%s%d", hash, folderIDInt)`), checked for
membership against the hashes fetched by exactly one listing call on that
folder.  Uploading the same content to the same folder when the
pre-fetched listing does not contain the key proceeds to the upload POST;
when the listing (as on a second attempt that observes the first upload)
contains the key, the call returns the distinguishable
`*DuplicateFileError` carrying the key, after exactly one listing call and
without performing the upload POST. -/
theorem dedup_key_and_second_upload_flagged :
    ∀ (env1 env2 : RemoteEnv) folderStr u s n content h fid m1 fo1 fs1 m2 fo2 fs2,
      computeMD5 content = .ok h →
      goAtoi folderStr = some fid →
      env1.folderList fid = .resp 200 m1 fo1 fs1 →
      env2.folderList fid = .resp 200 m2 fo2 fs2 →
      env1.readSrc = .ok () →
      (h ++ intToStr fid) ∉ fs1.map GoFileEntry.hash →
      (h ++ intToStr fid) ∈ fs2.map GoFileEntry.hash →
      uploadAttempted (uploadFileT env1 folderStr u s n content).2 = true ∧
      uploadFileT env2 folderStr u s n content =
        (.error (.duplicateFile (h ++ intToStr fid)), [.folderListCall fid]) ∧
      IsDuplicateFileError (.duplicateFile (h ++ intToStr fid)) = true := by
  intro env1 env2 folderStr u s n content h fid m1 fo1 fs1 m2 fo2 fs2
    hmd5 hatoi h1 h2 hread hnot hmem
  refine ⟨?_, ?_, rfl⟩
  · unfold uploadFileT FetchRemoteFileHashes
    simp only [hmd5, hatoi, h1, hread]
    rw [if_neg (by omega : ¬ (200 : Int) ≠ 200)]
    simp only []
    rw [if_neg hnot]
    cases hsu : env1.sendUpload with
    | error e => simp [hsu, uploadAttempted]
    | ok entries =>
      cases hh : handleUploadResponse entries with
      | ok fc => simp [hsu, hh, uploadAttempted]
      | error e => simp [hsu, hh, uploadAttempted]
      | panics msg => simp [hsu, hh, uploadAttempted]
  · unfold uploadFileT FetchRemoteFileHashes
    simp only [hmd5, hatoi, h2]
    rw [if_neg (by omega : ¬ (200 : Int) ≠ 200)]
    simp only []
    rw [if_pos hmem]

/-- Witness for `dedup_key_and_second_upload_flagged`: uploading the empty
content into folder 5 twice; the first attempt posts the upload, the
second is flagged as a duplicate without an upload POST. -/
theorem dedup_key_and_second_upload_flagged_witness :
    uploadAttempted (uploadFileT dupEnv1 (gs "5") (gs "u") (gs "s") (gs "f") []).2 = true ∧
    uploadFileT dupEnv2 (gs "5") (gs "u") (gs "s") (gs "f") [] =
      (.error (.duplicateFile (gs "yZp0xVU3GkM9Eh9VHWxjmA5")), [.folderListCall 5]) := by
  have h := dedup_key_and_second_upload_flagged dupEnv1 dupEnv2 (gs "5") (gs "u")
    (gs "s") (gs "f") [] (gs "yZp0xVU3GkM9Eh9VHWxjmA") 5 [] [] [] [] []
    [⟨gs "a.txt", gs "abc123def456", 0, gs "yZp0xVU3GkM9Eh9VHWxjmA5"⟩]
    computeMD5_nil (by decide) rfl rfl rfl (by decide) (by decide)
  exact ⟨h.1, h.2.1⟩

theorem dropWhile_eq_self_of_all {p : Char → Bool} {l : GoStr}
    (h : ∀ c ∈ l, p c = false) : l.dropWhile p = l := by
  cases l with
  | nil => rfl
  | cons c rest => simp [List.dropWhile, h c (by simp)]

theorem goTrimSpace_eq_self {s : GoStr} (h : ∀ c ∈ s, goIsSpace c = false) :
    goTrimSpace s = s := by
  unfold goTrimSpace trimRightSpace
  have h1 : s.reverse.dropWhile goIsSpace = s.reverse :=
    dropWhile_eq_self_of_all (fun c hc => h c (List.mem_reverse.mp hc))
  rw [h1, List.reverse_reverse, dropWhile_eq_self_of_all h]

theorem isFileCode_chars {s : GoStr} (h : isFileCode s = true) :
    s.length = 12 ∧ ∀ c ∈ s, ('a' ≤ c ∧ c ≤ 'z') ∨ ('0' ≤ c ∧ c ≤ '9') := by
  unfold isFileCode at h
  by_cases hl : s.length ≠ 12
  · rw [if_pos hl] at h
    exact absurd h (by simp)
  · rw [if_neg hl] at h
    refine ⟨by omega, ?_⟩
    intro c hc
    have := List.all_eq_true.mp h c hc
    simpa using this

theorem goIsSpace_alnum {c : Char}
    (h : ('a' ≤ c ∧ c ≤ 'z') ∨ ('0' ≤ c ∧ c ≤ '9')) : goIsSpace c = false := by
  have hb : (97 ≤ c.toNat ∧ c.toNat ≤ 122) ∨ (48 ≤ c.toNat ∧ c.toNat ≤ 57) := by
    rcases h with ⟨h1, h2⟩ | ⟨h1, h2⟩
    · exact .inl ⟨h1, h2⟩
    · exact .inr ⟨h1, h2⟩
  simp only [goIsSpace, decide_eq_false_iff_not]
  push_neg
  omega

theorem goTrimSpace_fileCode {s : GoStr} (h : isFileCode s = true) :
    goTrimSpace s = s :=
  goTrimSpace_eq_self (fun c hc => goIsSpace_alnum ((isFileCode_chars h).2 c hc))

theorem onlyFolderList_append {xs ys : List Event} :
    onlyFolderList (xs ++ ys) = (onlyFolderList xs && onlyFolderList ys) := by
  simp [onlyFolderList]

theorem resolveLoop_onlyFolderList (env : RemoteEnv) :
    ∀ parts cur tr, onlyFolderList tr = true →
      onlyFolderList (resolveLoop env parts cur tr).2 = true := by
  intro parts
  induction parts with
  | nil => intro cur tr h; exact h
  | cons p rest ih =>
    intro cur tr h
    rw [resolveLoop]
    by_cases hp : p = []
    · rw [if_pos hp]
      exact ih cur tr h
    · rw [if_neg hp]
      dsimp only
      by_cases hid : (decodeSegment p).2 ≠ 0
      · rw [if_pos hid]
        exact ih _ tr h
      · rw [if_neg hid]
        have htr : onlyFolderList (tr ++ [.folderListCall cur]) = true := by
          rw [onlyFolderList_append, h]
          rfl
        cases env.folderList cur with
        | fail e => exact htr
        | resp status m folders files =>
          dsimp only
          by_cases hst : status ≠ 200
          · rw [if_pos hst]
            exact htr
          · rw [if_neg hst]
            cases findFolder (decodeSegment p).1 folders with
            | some fid => exact ih fid _ htr
            | none => exact htr

theorem listDirectory_onlyFolderList (env : RemoteEnv) (folderID : Int) (dir : GoStr) :
    onlyFolderList (listDirectory env folderID dir).2 = true := by
  unfold listDirectory
  cases env.folderList folderID with
  | fail e => rfl
  | resp status m folders files =>
    dsimp only
    split <;> rfl

/-- C8: a string is treated as a file code exactly when it has length 12
and only lowercase-alphanumeric characters; when the configured root
satisfies this shape check, `List` bypasses folder listing entirely and
returns the one-element listing describing that file, with the name taken
from the direct-link URL and the size from the same lookup; when the root
does not satisfy it, `List` never consults the direct-link endpoint. -/
theorem fileCode_discriminates :
    (∀ s, isFileCode s = true ↔
      (s.length = 12 ∧ ∀ c ∈ s, ('a' ≤ c ∧ c ≤ 'z') ∨ ('0' ≤ c ∧ c ≤ '9'))) ∧
    (∀ env f dir m url size, isFileCode f.root = true →
      env.directLink f.root = .resp 200 m url size →
      Fs.List env f dir =
        (.ok [.objE ⟨extractFileName url, size, env.now⟩],
          [.directLinkCall f.root])) ∧
    (∀ env f dir, isFileCode f.root = false →
      ∀ code, Event.directLinkCall code ∉ (Fs.List env f dir).2) := by
  refine ⟨?_, ?_, ?_⟩
  · intro s
    constructor
    · exact isFileCode_chars
    · intro ⟨hl, hc⟩
      unfold isFileCode
      rw [if_neg (by omega)]
      rw [List.all_eq_true]
      intro c hcm
      have := hc c hcm
      simp only [decide_eq_true_eq]
      tauto
  · intro env f dir m url size hfc hdl
    have hroot : f.root ≠ [] := by
      intro h
      rw [h] at hfc
      exact absurd hfc (by decide)
    unfold Fs.List getDirectLink
    rw [if_pos hfc, goTrimSpace_fileCode hfc, if_neg hroot, hdl]
    simp
  · intro env f dir hfc code
    unfold Fs.List
    rw [if_neg (by simp [hfc])]
    have h1 := resolveLoop_onlyFolderList env (splitOnSlash dir) 0 [] rfl
    intro hmem
    cases hres : resolveFolderPath env dir with
    | mk r tr =>
      have htr : onlyFolderList tr = true := by
        unfold resolveFolderPath at hres
        by_cases hd : dir = []
        · rw [if_pos hd] at hres
          injection hres with _ h2
          rw [← h2]
          rfl
        · rw [if_neg hd] at hres
          have := resolveLoop_onlyFolderList env (splitOnSlash dir) 0 [] rfl
          rw [hres] at this
          exact this
      rw [hres] at hmem
      cases r with
      | error e =>
        simp only [] at hmem
        have := List.all_eq_true.mp htr _ hmem
        simp at this
      | ok folderID =>
        simp only [] at hmem
        cases hld : listDirectory env folderID dir with
        | mk res tr2 =>
          rw [hld] at hmem
          simp only [] at hmem
          have htr2 : onlyFolderList tr2 = true := by
            have := listDirectory_onlyFolderList env folderID dir
            rw [hld] at this
            exact this
          rcases List.mem_append.mp hmem with hm | hm
          · have := List.all_eq_true.mp htr _ hm
            simp at this
          · have := List.all_eq_true.mp htr2 _ hm
            simp at this

/-- Witness for `fileCode_discriminates` at concrete inputs. -/
theorem fileCode_discriminates_witness :
    Fs.List envDL ⟨gs "abc123def456"⟩ [] =
      (.ok [.objE ⟨gs "file.txt", 42, envDL.now⟩],
        [.directLinkCall (gs "abc123def456")]) ∧
    Event.directLinkCall (gs "x") ∉ (Fs.List trivEnv ⟨gs "docs"⟩ []).2 :=
  ⟨fileCode_discriminates.2.1 envDL ⟨gs "abc123def456"⟩ [] []
      (gs "https://cdn.filelu.com/d/abc/file.txt") 42 (by decide) rfl,
    fileCode_discriminates.2.2 trivEnv ⟨gs "docs"⟩ [] (by decide) (gs "x")⟩

theorem getFolderLoop_onlyFolderList (env : RemoteEnv) :
    ∀ parts cur tr, onlyFolderList tr = true →
      onlyFolderList (getFolderLoop env parts cur tr).2 = true := by
  intro parts
  induction parts with
  | nil => intro cur tr h; exact h
  | cons p rest ih =>
    intro cur tr h
    rw [getFolderLoop]
    by_cases hp : p = []
    · rw [if_pos hp]
      exact ih cur tr h
    · rw [if_neg hp]
      have htr : onlyFolderList (tr ++ [.folderListCall cur]) = true := by
        rw [onlyFolderList_append, h]
        rfl
      cases env.folderList cur with
      | fail e => exact htr
      | resp status m folders files =>
        dsimp only
        by_cases hst : status ≠ 200
        · rw [if_pos hst]
          exact htr
        · rw [if_neg hst]
          cases findFolder p folders with
          | some fid => exact ih fid _ htr
          | none => exact htr

theorem getFolderID_onlyFolderList (env : RemoteEnv) (root dir : GoStr) :
    onlyFolderList (getFolderID env root dir).2 = true := by
  unfold getFolderID
  by_cases hd : dir = []
  · rw [if_pos hd]
    cases goAtoi root <;> rfl
  · rw [if_neg hd]
    cases goAtoi dir with
    | some folderID => rfl
    | none => exact getFolderLoop_onlyFolderList env (splitOnSlash dir) 0 [] rfl

theorem noFolderDelete_of_onlyFolderList {tr : List Event}
    (h : onlyFolderList tr = true) : noFolderDelete tr = true := by
  unfold onlyFolderList at h
  unfold noFolderDelete
  rw [List.all_eq_true] at h ⊢
  intro e he
  have := h e he
  cases e <;> simp_all

theorem not_folderDelete_mem_of_only {tr : List Event} {i : Int}
    (h : onlyFolderList tr = true) : Event.folderDeleteCall i ∉ tr := by
  intro hm
  unfold onlyFolderList at h
  have := List.all_eq_true.mp h _ hm
  simp at this

/-- C9: `Rmdir` refuses non-empty directories before calling the remote
delete.  Whenever the resolved folder's listing shows any file or any
subfolder, `Rmdir` returns the no-retry `directory not empty` error and
its trace contains no `folder/delete` call; only an empty listing
proceeds to the `folder/delete` request; and in every `Rmdir` execution,
a `folder/delete` call on a folder implies that folder's listing showed
no files and no folders. -/
theorem rmdir_refuses_nonempty :
    (∀ env f dir fp fldID tr status m folders files,
      goTrimSlashes (if f.root ≠ [] then goPathJoin f.root dir else dir) = fp →
      fp ≠ [] →
      getFolderID env f.root fp = (.ok fldID, tr) →
      env.folderList fldID = .resp status m folders files →
      ((files ≠ [] ∨ folders ≠ []) →
        Rmdir env f dir =
          (.error (.noRetry (.msg (gs "directory not empty"))),
            tr ++ [.folderListCall fldID]) ∧
        noFolderDelete (Rmdir env f dir).2 = true) ∧
      ((files = [] ∧ folders = []) →
        Event.folderDeleteCall fldID ∈ (Rmdir env f dir).2)) ∧
    (∀ env f dir fldID,
      Event.folderDeleteCall fldID ∈ (Rmdir env f dir).2 →
      ∃ status m, env.folderList fldID = .resp status m [] []) := by
  constructor
  · intro env f dir fp fldID tr status m folders files hfp hne hget hlist
    have honly : onlyFolderList tr = true := by
      have h0 := getFolderID_onlyFolderList env f.root fp
      rw [hget] at h0
      exact h0
    have hstep : Rmdir env f dir =
        (if files ≠ [] ∨ folders ≠ [] then
          (.error (.noRetry (.msg (gs "directory not empty"))),
            tr ++ [.folderListCall fldID])
        else
          match env.folderDelete fldID with
          | .fail e =>
              (.error (.noRetry (.wrap (gs "failed to delete directory") e)),
                tr ++ [.folderListCall fldID, .folderDeleteCall fldID])
          | .resp dstatus dm =>
              if dstatus ≠ 200 then
                (.error (.noRetry (.msg (gs "Error: " ++ dm))),
                  tr ++ [.folderListCall fldID, .folderDeleteCall fldID])
              else (.ok (), tr ++ [.folderListCall fldID, .folderDeleteCall fldID])) := by
      simp only [Rmdir]
      rw [hfp, if_neg hne, hget]
      simp only []
      rw [hlist]
    constructor
    · intro hfull
      have h2 : noFolderDelete (tr ++ [Event.folderListCall fldID]) = true := by
        have h3 := noFolderDelete_of_onlyFolderList honly
        unfold noFolderDelete at h3 ⊢
        rw [List.all_append, h3]
        rfl
      constructor
      · rw [hstep, if_pos hfull]
      · rw [hstep, if_pos hfull]
        exact h2
    · intro ⟨hf, hfo⟩
      rw [hstep, if_neg (by simp [hf, hfo])]
      cases env.folderDelete fldID with
      | fail e => simp
      | resp dstatus dm =>
        dsimp only
        by_cases hds : dstatus ≠ 200
        · rw [if_pos hds]
          simp
        · rw [if_neg hds]
          simp
  · intro env f dir fldID hmem
    simp only [Rmdir] at hmem
    by_cases hpe :
        goTrimSlashes (if f.root ≠ [] then goPathJoin f.root dir else dir) = []
    · rw [if_pos hpe] at hmem
      simp at hmem
    · rw [if_neg hpe] at hmem
      cases hg : getFolderID env f.root
          (goTrimSlashes (if f.root ≠ [] then goPathJoin f.root dir else dir)) with
      | mk r tr =>
        have honly : onlyFolderList tr = true := by
          have h0 := getFolderID_onlyFolderList env f.root
            (goTrimSlashes (if f.root ≠ [] then goPathJoin f.root dir else dir))
          rw [hg] at h0
          exact h0
        rw [hg] at hmem
        cases r with
        | error e =>
          dsimp only at hmem
          by_cases he : errIs e .errorDirNotFound
          · rw [if_pos he] at hmem
            exact absurd hmem (not_folderDelete_mem_of_only honly)
          · rw [if_neg he] at hmem
            exact absurd hmem (not_folderDelete_mem_of_only honly)
        | ok fid =>
          dsimp only at hmem
          cases hl : env.folderList fid with
          | fail e2 =>
            rw [hl] at hmem
            dsimp only at hmem
            rcases List.mem_append.mp hmem with hm | hm
            · exact absurd hm (not_folderDelete_mem_of_only honly)
            · simp at hm
          | resp st m2 folders files =>
            rw [hl] at hmem
            dsimp only at hmem
            by_cases hne2 : files ≠ [] ∨ folders ≠ []
            · rw [if_pos hne2] at hmem
              rcases List.mem_append.mp hmem with hm | hm
              · exact absurd hm (not_folderDelete_mem_of_only honly)
              · simp at hm
            · rw [if_neg hne2] at hmem
              push_neg at hne2
              have hid : fldID = fid := by
                cases hd : env.folderDelete fid with
                | fail e3 =>
                  rw [hd] at hmem
                  rcases List.mem_append.mp hmem with hm | hm
                  · exact absurd hm (not_folderDelete_mem_of_only honly)
                  · simpa using hm
                | resp dstatus dm =>
                  rw [hd] at hmem
                  dsimp only at hmem
                  by_cases hds : dstatus ≠ 200
                  · rw [if_pos hds] at hmem
                    rcases List.mem_append.mp hmem with hm | hm
                    · exact absurd hm (not_folderDelete_mem_of_only honly)
                    · simpa using hm
                  · rw [if_neg hds] at hmem
                    rcases List.mem_append.mp hmem with hm | hm
                    · exact absurd hm (not_folderDelete_mem_of_only honly)
                    · simpa using hm
              refine ⟨st, m2, ?_⟩
              rw [hne2.1, hne2.2] at hl
              rw [hid]
              exact hl

/-- Witness for `rmdir_refuses_nonempty` at concrete inputs. -/
theorem rmdir_refuses_nonempty_witness :
    Rmdir envRmNonempty ⟨[]⟩ (gs "7") =
      (.error (.noRetry (.msg (gs "directory not empty"))), [.folderListCall 7]) ∧
    Event.folderDeleteCall 7 ∈ (Rmdir trivEnv ⟨[]⟩ (gs "7")).2 ∧
    ∃ status m, trivEnv.folderList 7 = .resp status m [] [] := by
  refine ⟨?_, ?_, ?_⟩
  · exact ((rmdir_refuses_nonempty.1 envRmNonempty ⟨[]⟩ (gs "7") (gs "7") 7 [] 200 []
      [] [⟨gs "a.txt", gs "abc123def456", 3, gs "h1"⟩] (by decide) (by decide) rfl
      rfl).1 (by simp)).1
  · exact (rmdir_refuses_nonempty.1 trivEnv ⟨[]⟩ (gs "7") (gs "7") 7 [] 200 [] [] []
      (by decide) (by decide) rfl rfl).2 ⟨rfl, rfl⟩
  · exact rmdir_refuses_nonempty.2 trivEnv ⟨[]⟩ (gs "7") 7 (by decide)
